import Mathlib

/-!
Verification development for the eval-hub evaluation execution core.

Shallow embedding of:
- `src/eval_hub/services/executor.py` (orchestrator: fan-out, grouping,
  retry/backoff, timeout wrapper, active-task bookkeeping),
- `src/eval_hub/executors/lmeval.py` (Kubernetes-CR executor: name
  sanitizer, CR modelArgs assembly, base-url resolution, poll loop,
  top-level failure conversion).

Machine integers are modelled as `Nat`, Python strings as Lean `String`
(`List Char` underneath, ASCII scope), Python dicts as insertion-ordered
association lists with unique keys, exceptions as an `Except` value, and
the cooperative scheduler's side effects (Kubernetes calls, subprocess
runs, wall-clock time) as explicit environment/oracle parameters.
-/

namespace EvalHub

/-! ## Data model

`models/evaluation.py` and `models/status.py` are not present under
`src/`; the shapes below are modelled from the spec (sections 3 and 4.4)
and pinned by `tests/unit/test_models.py`.
-/

/-- Modelled from the spec: the closed set of backend type tags from the
missing `models/evaluation.py`; values pinned by
`tests/unit/test_models.py` (`LMEVAL.value == "lm-evaluation-harness"`,
`GUIDELLM.value == "guidellm"`, `CUSTOM.value == "custom"`). -/
inductive BackendType where
  | lmeval
  | guidellm
  | custom
  deriving DecidableEq, Repr

/-- String value of a backend type tag (Python enum `.value`). -/
def BackendType.value : BackendType → String
  | .lmeval => "lm-evaluation-harness"
  | .guidellm => "guidellm"
  | .custom => "custom"

/-- Modelled from the spec: evaluation status enum from the missing
`models/status.py` (spec section 3: pending/running/completed/failed/cancelled). -/
inductive EvaluationStatus where
  | pending
  | running
  | completed
  | failed
  | cancelled
  deriving DecidableEq, Repr

/-- Modelled from the spec: task status enum from the missing
`models/status.py`, mirroring the evaluation statuses used by `TaskInfo`. -/
inductive TaskStatus where
  | pending
  | running
  | completed
  | failed
  | cancelled
  deriving DecidableEq, Repr

/-- Insertion-ordered string-keyed dictionary (Python `dict[str, str]`
with values rendered through `str`). -/
abbrev Dict := List (String × String)

/-- Python `d[k]` / `d.get(k)`: value at the first entry whose key is `k`. -/
def dictGet? (d : Dict) (k : String) : Option String :=
  (d.find? (fun p => p.1 == k)).map (·.2)

/-- Python `d[k] = v`: replace the value in place at the (for a Python
dict, unique) entry with key `k` when one exists, append otherwise. -/
def dictSet : Dict → String → String → Dict
  | [], k, v => [(k, v)]
  | p :: rest, k, v => if p.1 == k then (k, v) :: rest else p :: dictSet rest k v

/-- Python `d.update(other)`: write every entry of `other` into `d` in
order, so for a duplicate key the value from `other` wins. -/
def dictUpdate (d other : Dict) : Dict :=
  other.foldl (fun acc p => dictSet acc p.1 p.2) d

/-- `BenchmarkSpec` (spec section 3, shape pinned by `tests/unit/test_models.py`):
a named unit of work with a task list and an open config mapping. -/
structure BenchmarkSpec where
  name : String
  tasks : List String
  num_fewshot : Option Int := none
  batch_size : Option Int := none
  limit : Option Int := none
  device : Option String := none
  config : Dict := []

/-- `BackendSpec` (spec section 3): type tag, display name, and the
ordered benchmarks to run on the backend. -/
structure BackendSpec where
  name : String
  type : BackendType
  config : Dict := []
  benchmarks : List BenchmarkSpec

/-- Modelled from the spec: `EvaluationSpec` from the missing
`models/evaluation.py`; the fields the orchestrator reads (id, model
URL/name, backends, timeout and retry budgets). -/
structure EvaluationSpec where
  id : String
  model_url : String
  model_name : String
  backends : List BackendSpec
  timeout_minutes : Nat := 30
  retry_attempts : Nat := 2

/-- Modelled from the spec: `EvaluationRequest` from the missing
`models/evaluation.py`: a batch of evaluation specs. -/
structure EvaluationRequest where
  request_id : String
  evaluations : List EvaluationSpec

/-- `EvaluationResult` (spec section 3). Wall-clock timestamp fields
(`started_at`, `completed_at`) are outside the model; `duration_seconds`
is kept abstractly as a number of seconds when one is computed. -/
structure EvaluationResult where
  evaluation_id : String
  backend_name : String
  benchmark_name : String
  status : EvaluationStatus
  metrics : Dict := []
  artifacts : Dict := []
  error_message : Option String := none
  duration_seconds : Option Nat := none
  mlflow_run_id : Option String := none

/-- Modelled from the spec: `TaskInfo` from the missing
`models/status.py` — mutable record of an active evaluation's status,
keyed by evaluation id (spec section 3). -/
structure TaskInfo where
  evaluation_id : String
  status : TaskStatus

/-- Modelled from the spec: exception taxonomy of the missing
`core/exceptions.py` (spec section 7): `BackendError` and the
eval-hub `TimeoutError` are distinct classes; `other` stands for any
remaining Python exception. The payload is the exception's `str(e)`. -/
inductive PyErr where
  | backendError (msg : String)
  | timeoutError (msg : String)
  | other (msg : String)
  deriving DecidableEq, Repr

/-- Python `str(e)` on an exception: its message. -/
def PyErr.message : PyErr → String
  | .backendError m => m
  | .timeoutError m => m
  | .other m => m

/-- Whether an exception is the eval-hub `TimeoutError`. -/
def PyErr.isTimeout : PyErr → Bool
  | .timeoutError _ => true
  | _ => false

/-- `ExecutionContext` (`executors/base.py` lines 13-37): immutable
per-run descriptor built once per (evaluation, backend, benchmark)
triple. `started_at` and `metadata` are outside the model. -/
structure ExecutionContext where
  evaluation_id : String
  model_url : String
  model_name : String
  backend_spec : BackendSpec
  benchmark_spec : BenchmarkSpec
  timeout_minutes : Nat
  retry_attempts : Nat

/-! ## Kubernetes name sanitizer (`executors/lmeval.py` lines 25-75)

The sanitizer works on Python strings character by character; it is
embedded here on `List Char` with characters identified by code point
(ASCII scope: 'a'..'z' is 97..122, 'A'..'Z' is 65..90, '0'..'9' is
48..57, '.' is 46, '-' is 45, '/' is 47).
-/

/-- Membership in the regex character class `[a-z0-9.-]`
(`lmeval.py` line 45). -/
def allowedChar (c : Char) : Bool :=
  (decide (97 ≤ c.toNat) && decide (c.toNat ≤ 122))
    || (decide (48 ≤ c.toNat) && decide (c.toNat ≤ 57))
    || decide (c.toNat = 46) || decide (c.toNat = 45)

/-- Python `str.lower()` on one character (ASCII scope). -/
def pyLowerChar (c : Char) : Char :=
  if 65 ≤ c.toNat ∧ c.toNat ≤ 90 then Char.ofNat (c.toNat + 32) else c

/-- Python `str.isalnum()` on one character (ASCII scope; every
character this is applied to inside the sanitizer is already in
`[a-z0-9.-]`). -/
def pyIsAlnum (c : Char) : Bool :=
  (decide (65 ≤ c.toNat) && decide (c.toNat ≤ 90))
    || (decide (97 ≤ c.toNat) && decide (c.toNat ≤ 122))
    || (decide (48 ≤ c.toNat) && decide (c.toNat ≤ 57))

/-- The strip set of `sanitized.strip("-.")`: hyphen (code 45) or dot
(code 46). -/
def dashDot (c : Char) : Bool :=
  decide (c.toNat = 45) || decide (c.toNat = 46)

/-- `re.sub(r"-+", "-", s)` (`lmeval.py` line 48): collapse every
run of hyphens to a single hyphen. -/
def collapseHyphens : List Char → List Char
  | [] => []
  | [c] => [c]
  | a :: b :: rest =>
    if a.toNat = 45 ∧ b.toNat = 45 then collapseHyphens (b :: rest)
    else a :: collapseHyphens (b :: rest)

/-- Python `s.strip(chars)`: drop the matching characters from both
ends. -/
def stripChars (p : Char → Bool) (l : List Char) : List Char :=
  (l.dropWhile p).rdropWhile p

/-- `lmeval.py` lines 53-55: prepend "a" when the first character is
not alphanumeric. -/
def ensureAlnumStart (l : List Char) : List Char :=
  match l with
  | [] => []
  | c :: _ => if pyIsAlnum c then l else 'a' :: l

/-- `lmeval.py` lines 57-59: append "0" when the last character is
not alphanumeric. -/
def ensureAlnumEnd (l : List Char) : List Char :=
  match l.getLast? with
  | none => l
  | some c => if pyIsAlnum c then l else l ++ ['0']

/-- `lmeval.py` lines 61-65: when over the length budget, truncate and
re-strip trailing hyphens/dots. -/
def truncateStep (maxLength : Nat) (l : List Char) : List Char :=
  if maxLength < l.length then (l.take maxLength).rdropWhile dashDot else l

/-- `lmeval.py` lines 70-71: replace a non-alphanumeric first character
with "a" (string is non-empty at this point). -/
def forceAlnumStart (l : List Char) : List Char :=
  match l with
  | [] => []
  | c :: rest => if pyIsAlnum c then c :: rest else 'a' :: rest

/-- `lmeval.py` lines 72-73: replace a non-alphanumeric last character
with "0". -/
def forceAlnumEnd (l : List Char) : List Char :=
  match l.getLast? with
  | none => l
  | some c => if pyIsAlnum c then l else l.dropLast ++ ['0']

/-- `_sanitize_k8s_name`, final block (`lmeval.py` lines 67-73): fall
back to "evaljob" when the string emptied out, then force alphanumeric
boundaries. -/
def sanitizePost (s4 : List Char) : List Char :=
  forceAlnumEnd (forceAlnumStart (if s4 = [] then "evaljob".data else s4))

/-- `_sanitize_k8s_name` (`lmeval.py` lines 25-75) on the character
list: lowercase, replace characters outside `[a-z0-9.-]` with hyphens,
collapse hyphen runs, strip leading/trailing hyphens and dots, ensure
alphanumeric boundaries, truncate to the length budget, then the final
block. -/
def sanitizeChars (maxLength : Nat) (l : List Char) : List Char :=
  sanitizePost (truncateStep maxLength (ensureAlnumEnd (ensureAlnumStart
    (stripChars dashDot (collapseHyphens
      ((l.map pyLowerChar).map (fun c => if allowedChar c then c else '-')))))))

/-- `_sanitize_k8s_name` at the default length budget of 63. -/
def sanitize_k8s_name (name : String) : String :=
  String.mk (sanitizeChars 63 name.data)

/-! ### Character-class facts for the sanitizer -/

theorem allowedChar_iff {c : Char} :
    allowedChar c = true ↔
      (97 ≤ c.toNat ∧ c.toNat ≤ 122) ∨ (48 ≤ c.toNat ∧ c.toNat ≤ 57)
        ∨ c.toNat = 46 ∨ c.toNat = 45 := by
  simp only [allowedChar, Bool.or_eq_true, Bool.and_eq_true, decide_eq_true_eq]
  tauto

theorem pyIsAlnum_iff {c : Char} :
    pyIsAlnum c = true ↔
      (65 ≤ c.toNat ∧ c.toNat ≤ 90) ∨ (97 ≤ c.toNat ∧ c.toNat ≤ 122)
        ∨ (48 ≤ c.toNat ∧ c.toNat ≤ 57) := by
  simp only [pyIsAlnum, Bool.or_eq_true, Bool.and_eq_true, decide_eq_true_eq]
  tauto

theorem dashDot_iff {c : Char} :
    dashDot c = true ↔ c.toNat = 45 ∨ c.toNat = 46 := by
  simp [dashDot, Bool.or_eq_true, decide_eq_true_eq]

theorem dashDot_eq_false_iff {c : Char} :
    dashDot c = false ↔ c.toNat ≠ 45 ∧ c.toNat ≠ 46 := by
  rw [← Bool.not_eq_true, dashDot_iff]
  tauto

theorem pyLowerChar_of_allowed {c : Char} (h : allowedChar c = true) :
    pyLowerChar c = c := by
  rcases allowedChar_iff.mp h with h1 | h1 | h1 | h1 <;>
    · unfold pyLowerChar
      rw [if_neg (by omega)]

theorem pyIsAlnum_of_allowed_not_dashDot {c : Char}
    (h : allowedChar c = true) (hd : dashDot c = false) :
    pyIsAlnum c = true := by
  obtain ⟨h45, h46⟩ := dashDot_eq_false_iff.mp hd
  rcases allowedChar_iff.mp h with h1 | h1 | h1 | h1 <;>
    [ exact pyIsAlnum_iff.mpr (Or.inr (Or.inl h1));
      exact pyIsAlnum_iff.mpr (Or.inr (Or.inr h1));
      exact absurd h1 h46;
      exact absurd h1 h45 ]

theorem dashDot_eq_false_of_pyIsAlnum {c : Char} (h : pyIsAlnum c = true) :
    dashDot c = false := by
  rcases pyIsAlnum_iff.mp h with h1 | h1 | h1 <;>
    · rw [dashDot_eq_false_iff]
      omega

/-! ### Collapse of hyphen runs -/

/-- The output invariant of `re.sub(r"-+", "-", s)`: no two adjacent
hyphens. -/
def NoHyphenRun (l : List Char) : Prop :=
  List.Chain' (fun a b => ¬(a.toNat = 45 ∧ b.toNat = 45)) l

theorem mem_collapseHyphens {l : List Char} {c : Char}
    (h : c ∈ collapseHyphens l) : c ∈ l := by
  induction l with
  | nil => simp [collapseHyphens] at h
  | cons a tail ih =>
    match tail, ih with
    | [], _ => simpa [collapseHyphens] using h
    | b :: rest, ih =>
      rw [collapseHyphens] at h
      by_cases hab : a.toNat = 45 ∧ b.toNat = 45
      · rw [if_pos hab] at h
        exact List.mem_cons_of_mem _ (ih h)
      · rw [if_neg hab] at h
        rcases List.mem_cons.mp h with h | h
        · exact h ▸ List.mem_cons_self _ _
        · exact List.mem_cons_of_mem _ (ih h)

theorem head?_collapseHyphens {l : List Char} {c : Char}
    (h : (collapseHyphens l).head? = some c) :
    ∃ c0, l.head? = some c0 ∧ (c = c0 ∨ (c0.toNat = 45 ∧ c.toNat = 45)) := by
  induction l with
  | nil => simp [collapseHyphens] at h
  | cons a tail ih =>
    match tail, ih with
    | [], _ =>
      refine ⟨a, rfl, Or.inl ?_⟩
      simpa [collapseHyphens] using h.symm
    | b :: rest, ih =>
      rw [collapseHyphens] at h
      by_cases hab : a.toNat = 45 ∧ b.toNat = 45
      · rw [if_pos hab] at h
        obtain ⟨c0, hc0, hdisj⟩ := ih h
        rw [List.head?_cons, Option.some.injEq] at hc0
        refine ⟨a, rfl, Or.inr ⟨hab.1, ?_⟩⟩
        rcases hdisj with rfl | hd
        · exact hc0 ▸ hab.2
        · exact hd.2
      · rw [if_neg hab] at h
        rw [List.head?_cons, Option.some.injEq] at h
        exact ⟨a, rfl, Or.inl h.symm⟩

theorem noHyphenRun_collapseHyphens (l : List Char) :
    NoHyphenRun (collapseHyphens l) := by
  induction l with
  | nil => simp [collapseHyphens, NoHyphenRun]
  | cons a tail ih =>
    match tail, ih with
    | [], _ => simp [collapseHyphens, NoHyphenRun]
    | b :: rest, ih =>
      rw [collapseHyphens]
      by_cases hab : a.toNat = 45 ∧ b.toNat = 45
      · rw [if_pos hab]
        exact ih
      · rw [if_neg hab]
        refine List.chain'_cons'.mpr ⟨?_, ih⟩
        intro y hy
        obtain ⟨c0, hc0, hdisj⟩ := head?_collapseHyphens hy
        rw [List.head?_cons, Option.some.injEq] at hc0
        subst hc0
        rcases hdisj with rfl | hd
        · exact hab
        · intro hcon
          exact hab ⟨hcon.1, hd.1⟩

theorem collapseHyphens_eq_self {l : List Char} (h : NoHyphenRun l) :
    collapseHyphens l = l := by
  induction l with
  | nil => rfl
  | cons a tail ih =>
    match tail, ih with
    | [], _ => rfl
    | b :: rest, ih =>
      obtain ⟨hab, htail⟩ := List.chain'_cons.mp h
      rw [collapseHyphens, if_neg hab, ih htail]

/-! ### Strip and boundary facts -/

theorem head?_dropWhile_false {p : Char → Bool} :
    ∀ {l : List Char} {c : Char}, (l.dropWhile p).head? = some c → p c = false := by
  intro l
  induction l with
  | nil => intro c h; simp at h
  | cons a rest ih =>
    intro c h
    rw [List.dropWhile_cons] at h
    by_cases hpa : p a
    · rw [if_pos hpa] at h
      exact ih h
    · rw [if_neg hpa, List.head?_cons, Option.some.injEq] at h
      rw [← h]
      exact Bool.not_eq_true _ ▸ hpa

theorem head?_rdropWhile {p : Char → Bool} {l : List Char} {c : Char}
    (h : (l.rdropWhile p).head? = some c) : l.head? = some c := by
  obtain ⟨t, ht⟩ := List.rdropWhile_prefix p l
  rw [← ht, List.head?_append, h]
  rfl

theorem head?_eq_of_prefix {l m : List Char} (h : l <+: m) (hne : l ≠ []) :
    m.head? = l.head? := by
  obtain ⟨t, ht⟩ := h
  rw [← ht, List.head?_append]
  match l, hne with
  | a :: l, _ => rfl

theorem getLast?_rdropWhile_false {p : Char → Bool} {l : List Char} {c : Char}
    (h : (l.rdropWhile p).getLast? = some c) : p c = false := by
  have hne : l.rdropWhile p ≠ [] := by
    intro h0
    rw [h0] at h
    simp at h
  have hlast := List.rdropWhile_last_not (p := p) (l := l) hne
  rw [List.getLast?_eq_getLast _ hne, Option.some.injEq] at h
  rw [← h]
  exact Bool.not_eq_true _ ▸ hlast

theorem stripChars_infix (p : Char → Bool) (l : List Char) :
    stripChars p l <:+: l := by
  obtain ⟨s, hs⟩ := List.dropWhile_suffix (l := l) p
  obtain ⟨t, ht⟩ := List.rdropWhile_prefix p (l.dropWhile p)
  refine ⟨s, t, ?_⟩
  show s ++ List.rdropWhile p (l.dropWhile p) ++ t = l
  rw [List.append_assoc, ht, hs]

theorem head?_stripChars_false {p : Char → Bool} {l : List Char} {c : Char}
    (h : (stripChars p l).head? = some c) : p c = false :=
  head?_dropWhile_false (head?_rdropWhile h)

theorem getLast?_stripChars_false {p : Char → Bool} {l : List Char} {c : Char}
    (h : (stripChars p l).getLast? = some c) : p c = false :=
  getLast?_rdropWhile_false h

theorem map_eq_self_of_fixed {f : Char → Char} {l : List Char}
    (h : ∀ c ∈ l, f c = c) : l.map f = l :=
  (List.map_congr_left h).trans (List.map_id l)

/-! ### The sanitizer's output invariant -/

/-- Characterization of `_sanitize_k8s_name`'s possible outputs: every
character in `[a-z0-9.-]`, no hyphen runs, non-empty, alphanumeric on
both ends, and within the 63-character budget. -/
def GoodName (l : List Char) : Prop :=
  (∀ c ∈ l, allowedChar c = true) ∧ NoHyphenRun l ∧ l ≠ [] ∧
    (∀ c, l.head? = some c → pyIsAlnum c = true) ∧
    (∀ c, l.getLast? = some c → pyIsAlnum c = true) ∧
    l.length ≤ 63

theorem goodName_evaljob : GoodName "evaljob".data := by
  have hdata : "evaljob".data = ['e', 'v', 'a', 'l', 'j', 'o', 'b'] := rfl
  refine ⟨by decide, ?_, by decide, ?_, ?_, by decide⟩
  · rw [NoHyphenRun, hdata]
    simp [List.chain'_cons]
  · intro c h
    rw [hdata, List.head?_cons, Option.some.injEq] at h
    rw [← h]
    decide
  · intro c h
    rw [hdata] at h
    have hb : (['e', 'v', 'a', 'l', 'j', 'o', 'b'] : List Char).getLast? = some 'b' := rfl
    rw [hb, Option.some.injEq] at h
    rw [← h]
    decide

theorem ensureAlnumStart_eq_self {l : List Char}
    (h : ∀ c, l.head? = some c → pyIsAlnum c = true) :
    ensureAlnumStart l = l := by
  match l with
  | [] => rfl
  | c :: rest => rw [ensureAlnumStart, if_pos (h c rfl)]

theorem ensureAlnumEnd_eq_self {l : List Char}
    (h : ∀ c, l.getLast? = some c → pyIsAlnum c = true) :
    ensureAlnumEnd l = l := by
  cases hl : l.getLast? with
  | none => simp [ensureAlnumEnd, hl]
  | some c => simp [ensureAlnumEnd, hl, h c hl]

theorem forceAlnumStart_eq_self {l : List Char}
    (h : ∀ c, l.head? = some c → pyIsAlnum c = true) :
    forceAlnumStart l = l := by
  match l with
  | [] => rfl
  | c :: rest => rw [forceAlnumStart, if_pos (h c rfl)]

theorem forceAlnumEnd_eq_self {l : List Char}
    (h : ∀ c, l.getLast? = some c → pyIsAlnum c = true) :
    forceAlnumEnd l = l := by
  cases hl : l.getLast? with
  | none => simp [forceAlnumEnd, hl]
  | some c => simp [forceAlnumEnd, hl, h c hl]

theorem rdropWhile_ne_nil {p : Char → Bool} {l : List Char} {c : Char}
    (hc : l.head? = some c) (hpc : p c = false) : l.rdropWhile p ≠ [] := by
  intro h0
  have hall := List.rdropWhile_eq_nil_iff.mp h0
  have hmem : c ∈ l := List.mem_of_mem_head? hc
  rw [hall c hmem] at hpc
  cases hpc

theorem goodName_truncateStep {s2 : List Char}
    (hall2 : ∀ c ∈ s2, allowedChar c = true)
    (hchain2 : NoHyphenRun s2)
    (hhead2 : ∀ c, s2.head? = some c → pyIsAlnum c = true)
    (hlast2 : ∀ c, s2.getLast? = some c → pyIsAlnum c = true)
    (hne : s2 ≠ []) :
    GoodName (truncateStep 63 s2) := by
  rw [truncateStep]
  by_cases h63 : 63 < s2.length
  · rw [if_pos h63]
    obtain ⟨a, rest, rfl⟩ := List.exists_cons_of_ne_nil hne
    have hheadTake : ((a :: rest).take 63).head? = some a := rfl
    have ha : pyIsAlnum a = true := hhead2 a rfl
    have hda : dashDot a = false := dashDot_eq_false_of_pyIsAlnum ha
    have hne4 : ((a :: rest).take 63).rdropWhile dashDot ≠ [] :=
      rdropWhile_ne_nil hheadTake hda
    have hpre : ((a :: rest).take 63).rdropWhile dashDot <+: (a :: rest).take 63 :=
      List.rdropWhile_prefix dashDot _
    have hsub : ∀ c ∈ ((a :: rest).take 63).rdropWhile dashDot, c ∈ a :: rest :=
      fun c hc => List.take_subset 63 (a :: rest) (hpre.subset hc)
    refine ⟨fun c hc => hall2 c (hsub c hc), ?_, hne4, ?_, ?_, ?_⟩
    · exact List.Chain'.prefix (hchain2.take 63) hpre
    · intro c hc
      have h1 : some a = some c := by
        rw [← hheadTake, head?_eq_of_prefix hpre hne4, hc]
      rw [Option.some.injEq] at h1
      rw [← h1]
      exact ha
    · intro c hc
      exact pyIsAlnum_of_allowed_not_dashDot
        (hall2 c (hsub c (List.mem_of_mem_getLast? hc)))
        (getLast?_rdropWhile_false hc)
    · exact le_trans hpre.length_le (List.length_take_le 63 _)
  · rw [if_neg h63]
    exact ⟨hall2, hchain2, hne, hhead2, hlast2, by omega⟩

theorem sanitizePost_of_goodName {s4 : List Char} (h : GoodName s4) :
    sanitizePost s4 = s4 := by
  obtain ⟨-, -, hne, hhead, hlast, -⟩ := h
  rw [sanitizePost, if_neg hne, forceAlnumStart_eq_self hhead,
    forceAlnumEnd_eq_self hlast]

theorem goodName_sanitizePost {s4 : List Char}
    (h : s4 = [] ∨ GoodName s4) : GoodName (sanitizePost s4) := by
  rcases h with rfl | h
  · rw [sanitizePost, if_pos rfl,
      forceAlnumStart_eq_self goodName_evaljob.2.2.2.1,
      forceAlnumEnd_eq_self goodName_evaljob.2.2.2.2.1]
    exact goodName_evaljob
  · rw [sanitizePost_of_goodName h]
    exact h

theorem goodName_sanitizeChars (l : List Char) :
    GoodName (sanitizeChars 63 l) := by
  rw [sanitizeChars]
  have hall1 : ∀ c ∈ (l.map pyLowerChar).map (fun c => if allowedChar c then c else '-'),
      allowedChar c = true := by
    intro c hc
    obtain ⟨x, -, rfl⟩ := List.mem_map.mp hc
    by_cases hax : allowedChar x = true
    · rw [if_pos hax]
      exact hax
    · rw [if_neg hax]
      decide
  set s1 := (l.map pyLowerChar).map (fun c => if allowedChar c then c else '-') with hs1def
  set s2 := stripChars dashDot (collapseHyphens s1) with hs2def
  have hinf : s2 <:+: collapseHyphens s1 := stripChars_infix dashDot (collapseHyphens s1)
  have hall2 : ∀ c ∈ s2, allowedChar c = true :=
    fun c hc => hall1 c (mem_collapseHyphens (hinf.subset hc))
  have hchain2 : NoHyphenRun s2 :=
    List.Chain'.infix (noHyphenRun_collapseHyphens s1) hinf
  have hhead2 : ∀ c, s2.head? = some c → pyIsAlnum c = true := fun c hc =>
    pyIsAlnum_of_allowed_not_dashDot (hall2 c (List.mem_of_mem_head? hc))
      (head?_stripChars_false hc)
  have hlast2 : ∀ c, s2.getLast? = some c → pyIsAlnum c = true := fun c hc =>
    pyIsAlnum_of_allowed_not_dashDot (hall2 c (List.mem_of_mem_getLast? hc))
      (getLast?_stripChars_false hc)
  rw [ensureAlnumStart_eq_self hhead2, ensureAlnumEnd_eq_self hlast2]
  by_cases hne : s2 = []
  · rw [hne]
    exact goodName_sanitizePost (Or.inl rfl)
  · exact goodName_sanitizePost
      (Or.inr (goodName_truncateStep hall2 hchain2 hhead2 hlast2 hne))

theorem sanitizeChars_of_goodName {l : List Char} (h : GoodName l) :
    sanitizeChars 63 l = l := by
  obtain ⟨hall, hchain, hne, hhead, hlast, hlen⟩ := h
  rw [sanitizeChars]
  have hlow : l.map pyLowerChar = l :=
    map_eq_self_of_fixed (fun c hc => pyLowerChar_of_allowed (hall c hc))
  have hsub : l.map (fun c => if allowedChar c then c else '-') = l :=
    map_eq_self_of_fixed (fun c hc => if_pos (hall c hc))
  rw [hlow, hsub, collapseHyphens_eq_self hchain]
  have hstrip : stripChars dashDot l = l := by
    obtain ⟨a, rest, rfl⟩ := List.exists_cons_of_ne_nil hne
    have hda : dashDot a = false :=
      dashDot_eq_false_of_pyIsAlnum (hhead a rfl)
    have hdrop : (a :: rest).dropWhile dashDot = a :: rest := by
      rw [List.dropWhile_cons, if_neg (by simp [hda])]
    rw [stripChars, hdrop, List.rdropWhile_eq_self_iff]
    intro hl
    have hlastDD := dashDot_eq_false_of_pyIsAlnum
      (hlast _ (List.getLast?_eq_getLast _ hl))
    simp [hlastDD]
  rw [hstrip, ensureAlnumStart_eq_self hhead, ensureAlnumEnd_eq_self hlast]
  rw [truncateStep, if_neg (by omega)]
  exact sanitizePost_of_goodName ⟨hall, hchain, hne, hhead, hlast, hlen⟩

/-- C8: the Kubernetes-name sanitizer `_sanitize_k8s_name` is idempotent
— applying it twice yields the same string as applying it once — and for
every input the output is at most 63 characters, entirely lowercase
(every character is a fixed point of `str.lower()`), non-empty, and
begins and ends with an alphanumeric character. -/
theorem C8_sanitize_idempotent_bounded (s : String) :
    sanitize_k8s_name (sanitize_k8s_name s) = sanitize_k8s_name s
    ∧ (sanitize_k8s_name s).length ≤ 63
    ∧ (∀ c ∈ (sanitize_k8s_name s).data, pyLowerChar c = c)
    ∧ (sanitize_k8s_name s).data ≠ []
    ∧ (∀ c, (sanitize_k8s_name s).data.head? = some c → pyIsAlnum c = true)
    ∧ (∀ c, (sanitize_k8s_name s).data.getLast? = some c → pyIsAlnum c = true) := by
  obtain ⟨hall, hchain, hne, hhead, hlast, hlen⟩ := goodName_sanitizeChars s.data
  refine ⟨?_, hlen, fun c hc => pyLowerChar_of_allowed (hall c hc), hne, hhead, hlast⟩
  show String.mk (sanitizeChars 63 (sanitizeChars 63 s.data))
    = String.mk (sanitizeChars 63 s.data)
  rw [sanitizeChars_of_goodName ⟨hall, hchain, hne, hhead, hlast, hlen⟩]

/-! ## Dictionary lookup lemmas -/

theorem dictGet?_nil (k : String) : dictGet? [] k = none := rfl

theorem dictGet?_cons (p : String × String) (d : Dict) (k : String) :
    dictGet? (p :: d) k = if p.1 = k then some p.2 else dictGet? d k := by
  by_cases h : p.1 = k
  · rw [if_pos h, dictGet?, List.find?_cons_of_pos _ (by simpa using h)]
    rfl
  · rw [if_neg h, dictGet?, List.find?_cons_of_neg _ (by simpa using h)]
    rfl

theorem dictGet?_append (l1 l2 : Dict) (k : String) :
    dictGet? (l1 ++ l2) k = (dictGet? l1 k).or (dictGet? l2 k) := by
  rw [dictGet?, dictGet?, dictGet?, List.find?_append]
  cases l1.find? (fun p => p.1 == k) <;> simp

theorem dictGet?_dictSet (d : Dict) (k0 v0 k : String) :
    dictGet? (dictSet d k0 v0) k = if k = k0 then some v0 else dictGet? d k := by
  induction d with
  | nil =>
    rw [dictSet, dictGet?_cons, dictGet?_nil]
    by_cases hk : k = k0
    · rw [if_pos hk.symm, if_pos hk]
    · rw [if_neg (fun h => hk h.symm), if_neg hk]
  | cons p rest ih =>
    rw [dictSet]
    by_cases hp : p.1 = k0
    · rw [if_pos (by simpa using hp), dictGet?_cons, dictGet?_cons]
      by_cases hk : k = k0
      · rw [if_pos hk.symm, if_pos hk]
      · rw [if_neg (fun h => hk h.symm), if_neg hk,
          if_neg (fun h => hk ((hp.symm.trans h).symm))]
    · rw [if_neg (by simpa using hp), dictGet?_cons, dictGet?_cons, ih]
      by_cases hpk : p.1 = k
      · rw [if_pos hpk, if_neg (fun hkk => hp (hpk.trans hkk)), if_pos hpk]
      · rw [if_neg hpk]
        by_cases hk : k = k0
        · rw [if_pos hk, if_pos hk]
        · rw [if_neg hk, if_neg hk, if_neg hpk]

theorem dictGet?_eq_none_of_not_mem_keys {d : Dict} {k : String}
    (h : k ∉ d.map Prod.fst) : dictGet? d k = none := by
  rw [dictGet?, List.find?_eq_none.mpr, Option.map_none']
  intro p hp hbeq
  exact h (List.mem_map.mpr ⟨p, hp, by simpa using hbeq⟩)

theorem dictGet?_dictUpdate (d e : Dict) (k : String)
    (he : (e.map Prod.fst).Nodup) :
    dictGet? (dictUpdate d e) k = (dictGet? e k).or (dictGet? d k) := by
  induction e generalizing d with
  | nil => simp [dictUpdate, dictGet?]
  | cons p e ih =>
    rw [List.map_cons, List.nodup_cons] at he
    rw [dictUpdate, List.foldl_cons]
    have hrec := ih (dictSet d p.1 p.2) he.2
    rw [dictUpdate] at hrec
    rw [hrec, dictGet?_dictSet, dictGet?_cons]
    by_cases hk : k = p.1
    · rw [if_pos hk, if_pos hk.symm,
        dictGet?_eq_none_of_not_mem_keys (hk ▸ he.1)]
      simp
    · rw [if_neg hk, if_neg (fun h => hk h.symm)]

/-! ## CR modelArgs assembly and base-url resolution
(`executors/lmeval.py` lines 261-367) -/

/-- The backend-config fields read by `LMEvalExecutor.__init__` and
`_build_lmeval_job_cr` (`lmeval.py` lines 77-95, 261-367). `model_args`
is modelled in its dict form — the JSON-string form parses to the same
dict (`lmeval.py` lines 279-287) — and option values are modelled
post-`str()`. Fields the claims do not touch (namespace, output paths,
secrets, batch size, device) are omitted. -/
structure LMEvalConfig where
  model : Option String := none
  model_args : Dict := []
  base_url : Option String := none
  num_concurrent : Option String := none
  max_retries : Option String := none
  tokenized_requests : Option String := none
  tokenizer : Option String := none
  timeout_seconds : Nat := 3600
  deploy_crs : Bool := true
  poll_interval : Nat := 5

/-- `base_url.rstrip("/")` (`lmeval.py` line 317): drop every trailing
slash (code 47). -/
def pyRstripSlash (s : String) : String :=
  String.mk (s.data.rdropWhile (fun c => decide (c.toNat = 47)))

/-- Python `str.endswith`, as a suffix test on the character list. -/
def pyEndsWith (s t : String) : Bool :=
  t.data.isSuffixOf s.data

/-- Endpoint normalization (`lmeval.py` lines 315-320): strip trailing
slashes, then append "/v1/completions" when the stripped URL does not
already end with it. -/
def normalizeUrl (base : String) : String :=
  let stripped := pyRstripSlash base
  if pyEndsWith stripped "/v1/completions" then stripped
  else stripped ++ "/v1/completions"

/-- Base-endpoint resolution for the CR's `base_url` model argument
(`lmeval.py` lines 294-343): the context model URL when non-empty, else
the backend-config `base_url`, else empty; a non-empty resolution is
normalized, an empty one stays the empty string. -/
def resolveBaseUrl (contextModelUrl cfgBaseUrl : String) : String :=
  let base := if contextModelUrl = "" then cfgBaseUrl else contextModelUrl
  if base = "" then "" else normalizeUrl base

/-- One step of the modelArgs default merge (`lmeval.py` lines 290-291,
294-343, 365-367): append the name/value pair only when no entry with
that name exists yet — first write wins. -/
def addIfAbsent (l : Dict) (kv : String × String) : Dict :=
  if l.any (fun arg => arg.1 == kv.1) then l else l ++ [kv]

/-- The `modelArgs` assembly of `_build_lmeval_job_cr`
(`lmeval.py` lines 271-367): explicit backend-config model args first,
then the required defaults `model`, `base_url`, `num_concurrent`,
`max_retries`, `tokenized_requests`, `tokenizer`, each appended only
when absent. -/
def buildModelArgs (cfg : LMEvalConfig) (contextModelUrl model : String) : Dict :=
  addIfAbsent (addIfAbsent (addIfAbsent (addIfAbsent (addIfAbsent (addIfAbsent
    cfg.model_args
    ("model", model))
    ("base_url", resolveBaseUrl contextModelUrl (cfg.base_url.getD "")))
    ("num_concurrent", cfg.num_concurrent.getD "1"))
    ("max_retries", cfg.max_retries.getD "3"))
    ("tokenized_requests", cfg.tokenized_requests.getD "False"))
    ("tokenizer", cfg.tokenizer.getD "google/flan-t5-base")

theorem any_eq_false_of_dictGet?_none {l : Dict} {k : String}
    (h : dictGet? l k = none) : l.any (fun arg => arg.1 == k) = false := by
  rw [dictGet?, Option.map_eq_none'] at h
  rw [List.any_eq_false]
  intro p hp
  exact List.find?_eq_none.mp h p hp

theorem dictGet?_addIfAbsent_of_present {l : Dict} {k v : String}
    (kv : String × String) (h : dictGet? l k = some v) :
    dictGet? (addIfAbsent l kv) k = some v := by
  rw [addIfAbsent]
  split
  · exact h
  · rw [dictGet?_append, h]
    simp

theorem dictGet?_addIfAbsent_of_absent {l : Dict} {k v : String}
    (h : dictGet? l k = none) :
    dictGet? (addIfAbsent l (k, v)) k = some v := by
  rw [addIfAbsent, if_neg (by rw [any_eq_false_of_dictGet?_none h]; exact Bool.false_ne_true),
    dictGet?_append, h, dictGet?_cons, if_pos rfl]
  simp

theorem dictGet?_addIfAbsent_of_ne {l : Dict} {k : String}
    (kv : String × String) (h : k ≠ kv.1) :
    dictGet? (addIfAbsent l kv) k = dictGet? l k := by
  rw [addIfAbsent]
  split
  · rfl
  · rw [dictGet?_append, dictGet?_cons, if_neg (fun hh => h hh.symm), dictGet?_nil]
    cases dictGet? l k <;> rfl

/-! ## Orchestrator (`services/executor.py`) -/

/-- Scheduler-visible events of one `_execute_benchmark` call
(`executor.py` lines 296-383): semaphore acquisition and release around
the `async with` block, the model-URL check, execution attempts, and
backoff sleeps (durations in seconds). -/
inductive Event where
  | acquire
  | urlCheck
  | attempt (i : Nat)
  | sleep (n : Nat)
  | release
  deriving DecidableEq, Repr

/-- Environment oracle: the outcome of
`_execute_benchmark_with_timeout(context, …)` for a given context and
0-indexed attempt number — `.ok` a returned result, `.error` the raised
exception. -/
structure Env where
  attemptOutcome : ExecutionContext → Nat → Except PyErr EvaluationResult

/-- Python `str(last_error)` where `last_error` starts out as `None`
(`executor.py` lines 338, 378). -/
def pyStrLastError : Option PyErr → String
  | none => "None"
  | some e => e.message

/-- The synthesized result after retry exhaustion
(`executor.py` lines 372-383); the wall-clock duration field is outside
the model. -/
def exhaustedResult (ctx : ExecutionContext) (lastErr : Option PyErr) : EvaluationResult :=
  { evaluation_id := ctx.evaluation_id
    backend_name := ctx.backend_spec.name
    benchmark_name := ctx.benchmark_spec.name
    status := .failed
    error_message := some ("Failed after " ++ toString (ctx.retry_attempts + 1)
      ++ " attempts: " ++ pyStrLastError lastErr) }

/-- Joint output of the retry loop: the final result, the number of
attempts made, the total backoff sleep in seconds, and the event
trace. -/
structure RetryOut where
  result : EvaluationResult
  attemptsMade : Nat
  totalSleep : Nat
  trace : List Event

/-- The retry loop of `_execute_benchmark` (`executor.py` lines
337-383), at attempt index `i` with `fuel` attempts remaining: the
source runs `for attempt in range(retry_attempts + 1)`, so the entry
point is `i = 0`, `fuel = retry_attempts + 1`. A successful attempt
returns immediately; a failing attempt is followed by a `2^i`-second
backoff sleep when further attempts remain; exhaustion synthesizes the
failure result from the last error. -/
def retryFrom (ctx : ExecutionContext) (att : Nat → Except PyErr EvaluationResult)
    (r : Nat) : Nat → Nat → Option PyErr → RetryOut
  | _, 0, lastErr =>
    { result := exhaustedResult ctx lastErr
      attemptsMade := 0
      totalSleep := 0
      trace := [] }
  | i, fuel + 1, _ =>
    match att i with
    | .ok res =>
      { result := res, attemptsMade := 1, totalSleep := 0, trace := [.attempt i] }
    | .error e =>
      let rest := retryFrom ctx att r (i + 1) fuel (some e)
      { result := rest.result
        attemptsMade := rest.attemptsMade + 1
        totalSleep := (if i < r then 2 ^ i else 0) + rest.totalSleep
        trace := (if i < r then [Event.attempt i, Event.sleep (2 ^ i)]
          else [Event.attempt i]) ++ rest.trace }

/-- `ExecutionContext` construction (`executor.py` lines 317-327). -/
def mkContext (evaluation : EvaluationSpec) (backend : BackendSpec)
    (benchmark : BenchmarkSpec) : ExecutionContext :=
  { evaluation_id := evaluation.id
    model_url := evaluation.model_url
    model_name := evaluation.model_name
    backend_spec := backend
    benchmark_spec := benchmark
    timeout_minutes := evaluation.timeout_minutes
    retry_attempts := evaluation.retry_attempts }

/-- Joint output of one `_execute_benchmark` call: its outcome (`.error`
models an exception escaping the call), the attempts made, the total
backoff sleep, and the event trace. -/
structure BenchRun where
  outcome : Except PyErr EvaluationResult
  attemptsMade : Nat
  totalSleep : Nat
  trace : List Event

/-- `_execute_benchmark` (`executor.py` lines 296-383): inside the
`async with self.execution_semaphore` block, raise `BackendError` when
the evaluation's model URL is empty — before any attempt — otherwise
build the context and run the retry loop. The semaphore is released on
every exit path, normal return or escaping exception. -/
def executeBenchmark (env : Env) (evaluation : EvaluationSpec)
    (backend : BackendSpec) (benchmark : BenchmarkSpec) : BenchRun :=
  if evaluation.model_url = "" then
    { outcome := .error (.backendError
        ("Model URL is required but not provided for evaluation " ++ evaluation.id))
      attemptsMade := 0
      totalSleep := 0
      trace := [.acquire, .urlCheck, .release] }
  else
    let ctx := mkContext evaluation backend benchmark
    let out := retryFrom ctx (env.attemptOutcome ctx) ctx.retry_attempts 0
      (ctx.retry_attempts + 1) none
    { outcome := .ok out.result
      attemptsMade := out.attemptsMade
      totalSleep := out.totalSleep
      trace := [.acquire, .urlCheck] ++ out.trace ++ [.release] }

/-- The combined benchmark spec built for an LMEval backend
(`executor.py` lines 200-228): concatenated task lists, configs merged
with later benchmarks overriding earlier ones, remaining fields from
the first benchmark. -/
def combinedBenchmark (backend : BackendSpec) : BenchmarkSpec :=
  { name := "collection-" ++ String.intercalate "-" (backend.benchmarks.map (fun b => b.name))
    tasks := backend.benchmarks.flatMap (fun b => b.tasks)
    config := backend.benchmarks.foldl (fun acc b => dictUpdate acc b.config) []
    num_fewshot := match backend.benchmarks with
      | [] => none
      | b :: _ => b.num_fewshot
    batch_size := match backend.benchmarks with
      | [] => none
      | b :: _ => b.batch_size
    limit := match backend.benchmarks with
      | [] => none
      | b :: _ => b.limit
    device := match backend.benchmarks with
      | [] => none
      | b :: _ => b.device }

/-- The substitute `failed` result built when a benchmark execution
raises (`executor.py` lines 252-263 and 281-292); the source sets the
duration to `0.0`. -/
def benchmarkErrorResult (evaluation : EvaluationSpec)
    (backendName benchName : String) (e : PyErr) : EvaluationResult :=
  { evaluation_id := evaluation.id
    backend_name := backendName
    benchmark_name := benchName
    status := .failed
    error_message := some e.message
    duration_seconds := some 0 }

/-- `_execute_backend` (`executor.py` lines 175-294): an LMEval backend
runs once on the combined benchmark, every other backend runs each
benchmark in order; in both branches an exception raised by
`_execute_benchmark` is caught and converted into exactly one
substitute `failed` result. -/
def executeBackend (env : Env) (evaluation : EvaluationSpec)
    (backend : BackendSpec) : List EvaluationResult :=
  if backend.type = BackendType.lmeval then
    match (executeBenchmark env evaluation backend (combinedBenchmark backend)).outcome with
    | .ok res => [res]
    | .error e =>
      [benchmarkErrorResult evaluation backend.name
        ("collection-" ++ String.intercalate "-" (backend.benchmarks.map (fun b => b.name))) e]
  else
    backend.benchmarks.map (fun benchmark =>
      match (executeBenchmark env evaluation backend benchmark).outcome with
      | .ok res => res
      | .error e => benchmarkErrorResult evaluation backend.name benchmark.name e)

/-- `_execute_single_evaluation` (`executor.py` lines 92-173): backend
fan-out, then concatenation of the per-backend result lists.
`_execute_backend` is total in the model, so the per-backend substitute
branch of the gather loop is unreachable. -/
def executeSingleEvaluation (env : Env) (evaluation : EvaluationSpec) :
    List EvaluationResult :=
  (evaluation.backends.map (executeBackend env evaluation)).flatten

/-- `execute_evaluation_request` (`executor.py` lines 37-90):
evaluation fan-out, then concatenation. `_execute_single_evaluation` is
total in the model, so the per-evaluation substitute branch of the
gather loop is unreachable. -/
def executeEvaluationRequest (env : Env) (request : EvaluationRequest) :
    List EvaluationResult :=
  (request.evaluations.map (executeSingleEvaluation env)).flatten

/-- Expected result count (spec section 8, determinism of counts): one
result per benchmark, except that a grouped (LMEval) backend
contributes exactly one result. -/
def expectedCount (request : EvaluationRequest) : Nat :=
  (request.evaluations.map (fun e =>
    (e.backends.map (fun b =>
      if b.type = BackendType.lmeval then 1 else b.benchmarks.length)).sum)).sum

/-- `_execute_benchmark_with_timeout` (`executor.py` lines 385-402):
the attempt runs under `asyncio.wait_for` with a budget of
`timeout_minutes * 60` seconds; on expiry the builtin timeout becomes
the eval-hub `TimeoutError`. `implSeconds` is the wall-clock duration
the inner `_execute_benchmark_impl` call would take, supplied by the
environment, and `inner` its outcome. -/
def executeBenchmarkWithTimeout (implSeconds timeoutMinutes : Nat)
    (inner : Except PyErr EvaluationResult) : Except PyErr EvaluationResult :=
  if timeoutMinutes * 60 < implSeconds then
    .error (.timeoutError ("Benchmark execution timed out after "
      ++ toString timeoutMinutes ++ " minutes"))
  else inner

/-! ## Active-task bookkeeping (`services/executor.py` lines 29-35 and
635-652) -/

/-- The orchestrator service's mutable state (`executor.py` line 32):
the process-wide active-tasks map, keyed by evaluation id. -/
structure ExecutorState where
  active_tasks : List (String × TaskInfo) := []

/-- Fresh service state (`__init__`, `executor.py` lines 29-35): the
active-tasks map starts empty. -/
def initialExecutorState : ExecutorState := {}

/-- `execute_evaluation_request` as a state transformer: no statement in
the execution path of `executor.py` (lines 37-633) reads or writes
`self.active_tasks`, so the state comes back unchanged next to the
results. -/
def executeEvaluationRequestS (st : ExecutorState) (env : Env)
    (request : EvaluationRequest) : ExecutorState × List EvaluationResult :=
  (st, executeEvaluationRequest env request)

/-- `get_active_evaluations` (`executor.py` lines 635-637). -/
def getActiveEvaluations (st : ExecutorState) : List TaskInfo :=
  st.active_tasks.map (fun p => p.2)

/-- `cancel_evaluation` (`executor.py` lines 639-647): when the id is
present, mutate that task's status to cancelled and report `true`;
report `false` otherwise. -/
def cancelEvaluation (st : ExecutorState) (evaluationId : String) :
    ExecutorState × Bool :=
  match st.active_tasks.find? (fun p => p.1 == evaluationId) with
  | some _ =>
    ({ active_tasks := st.active_tasks.map (fun p =>
        if p.1 == evaluationId then (p.1, { p.2 with status := TaskStatus.cancelled })
        else p) },
      true)
  | none => (st, false)

/-- `get_evaluation_status` (`executor.py` lines 649-652). -/
def getEvaluationStatus (st : ExecutorState) (evaluationId : String) : Option TaskInfo :=
  (st.active_tasks.find? (fun p => p.1 == evaluationId)).map (fun p => p.2)

/-! ## LMEval executor (`executors/lmeval.py` lines 131-254 and
661-752) -/

/-- The `status` block of a fetched LMEvalJob CR (`lmeval.py` lines
710-738): absent keys fall back to the source defaults at the use
sites. -/
structure CRStatus where
  state : Option String := none
  reason : Option String := none
  message : Option String := none
  results : Option String := none

/-- One `get_namespaced_custom_object` outcome while polling
(`lmeval.py` lines 697-708). -/
inductive PollFetch where
  | notFound
  | apiError (msg : String)
  | fetched (status : CRStatus)

/-- The poll loop of `_wait_for_cr_completion_and_get_results`
(`lmeval.py` lines 688-752), driven by the finite trace of
`(elapsed seconds, fetch outcome)` pairs the environment provides, one
per iteration. Each iteration first re-checks the wall-clock budget and
raises `BackendError` on excess, then fetches the CR (404 and other API
errors also raise `BackendError`), then inspects the state: terminal
success parses results, terminal failure returns a `failed` result with
the control plane's message and the elapsed time as duration, anything
else polls again. `none` models a trace that ends before the
`while True` loop does. `parse` stands for `_parse_cr_results` (JSON
decoding of the control-plane payload, an environment capability). -/
def pollLoop (crName : String) (maxWait : Nat) (ctx : ExecutionContext)
    (parse : CRStatus → Except PyErr EvaluationResult) :
    List (Nat × PollFetch) → Option (Except PyErr EvaluationResult)
  | [] => none
  | (elapsed, fetch) :: rest =>
    if maxWait < elapsed then
      some (.error (.backendError ("LMEvalJob CR " ++ crName
        ++ " did not complete within " ++ toString maxWait ++ " seconds")))
    else
      match fetch with
      | .notFound =>
        some (.error (.backendError ("LMEvalJob CR " ++ crName ++ " not found")))
      | .apiError m =>
        some (.error (.backendError ("Failed to get CR status: " ++ m)))
      | .fetched st =>
        if st.state.getD "Unknown" = "Complete" then
          if st.reason.getD "" = "Succeeded" then some (parse st)
          else some (.ok
            { evaluation_id := ctx.evaluation_id
              backend_name := "lm-evaluation-harness"
              benchmark_name := ctx.benchmark_spec.name
              status := .failed
              error_message := some (st.message.getD "Job failed")
              duration_seconds := some elapsed })
        else pollLoop crName maxWait ctx parse rest

/-- Environment for one `LMEvalExecutor.execute_benchmark` call: the
generated job name, the CR deployment outcome, the poll trace, the
result parser (`_parse_cr_results`), and the outcome of the local
subprocess path (`_run_lm_eval` followed by
`_convert_lmeval_result_to_eval_hub`). -/
structure LMEvalEnv where
  jobName : String
  deployOutcome : Except PyErr Unit
  pollTrace : List (Nat × PollFetch)
  parseResults : CRStatus → Except PyErr EvaluationResult
  localOutcome : Except PyErr EvaluationResult

/-- Python `self.model or context.model_name` (`lmeval.py` line 139):
the config value wins unless it is absent or empty. -/
def resolvedModel (cfg : LMEvalConfig) (ctx : ExecutionContext) : String :=
  if cfg.model.getD "" = "" then ctx.model_name else cfg.model.getD ""

/-- The body of `execute_benchmark`'s `try` block (`lmeval.py` lines
152-234): deploy the CR and poll when CR deployment is enabled, run the
local subprocess path otherwise. `cfg.deploy_crs` models
`self.deploy_crs and self.k8s_client` — deployment enabled and the
client successfully initialized in `__init__`. -/
def lmevalTryBody (cfg : LMEvalConfig) (env : LMEvalEnv) (ctx : ExecutionContext) :
    Option (Except PyErr EvaluationResult) :=
  if cfg.deploy_crs then
    match env.deployOutcome with
    | .error e => some (.error e)
    | .ok _ => pollLoop env.jobName cfg.timeout_seconds ctx env.parseResults env.pollTrace
  else some env.localOutcome

/-- The `failed` result built by `execute_benchmark`'s `except` block
(`lmeval.py` lines 244-254). -/
def lmevalFailedResult (ctx : ExecutionContext) (msg : String) : EvaluationResult :=
  { evaluation_id := ctx.evaluation_id
    backend_name := "lm-evaluation-harness"
    benchmark_name := ctx.benchmark_spec.name
    status := .failed
    error_message := some msg }

/-- `LMEvalExecutor.execute_benchmark` (`lmeval.py` lines 131-254): the
model-name check at lines 139-143 runs before the `try` block, so its
`BackendError` propagates to the caller; every exception raised inside
the `try` is caught and converted to a `failed` result carrying
`str(e)`. `none` models a non-terminating poll loop. -/
def lmevalExecuteBenchmark (cfg : LMEvalConfig) (env : LMEvalEnv)
    (ctx : ExecutionContext) : Option (Except PyErr EvaluationResult) :=
  if resolvedModel cfg ctx = "" then
    some (.error (.backendError
      "Model name is required (either in backend config or context)"))
  else
    match lmevalTryBody cfg env ctx with
    | none => none
    | some (.ok res) => some (.ok res)
    | some (.error e) => some (.ok (lmevalFailedResult ctx e.message))

/-! ## Result-count lemmas (claim C1) -/

theorem length_executeBackend (env : Env) (evaluation : EvaluationSpec)
    (backend : BackendSpec) :
    (executeBackend env evaluation backend).length
      = if backend.type = BackendType.lmeval then 1 else backend.benchmarks.length := by
  rw [executeBackend]
  by_cases h : backend.type = BackendType.lmeval
  · rw [if_pos h, if_pos h]
    cases (executeBenchmark env evaluation backend (combinedBenchmark backend)).outcome <;> rfl
  · rw [if_neg h, if_neg h, List.length_map]

theorem length_executeSingleEvaluation (env : Env) (evaluation : EvaluationSpec) :
    (executeSingleEvaluation env evaluation).length
      = (evaluation.backends.map (fun b =>
          if b.type = BackendType.lmeval then 1 else b.benchmarks.length)).sum := by
  rw [executeSingleEvaluation, List.length_flatten, List.map_map]
  congr 1
  exact List.map_congr_left (fun b _ => length_executeBackend env evaluation b)

/-- C1: for every batch, `execute_evaluation_request` returns one
result per (evaluation, backend, benchmark) triple, except that each
backend of the grouping (LMEval) type contributes exactly one result; a
batch of N evaluations, each with M backends of a non-grouping type
carrying K benchmarks each, yields exactly N×M×K results; and the empty
batch yields the empty list (and, the model being total, never an
exception). -/
theorem C1_result_count (env : Env) (request : EvaluationRequest) :
    (executeEvaluationRequest env request).length = expectedCount request
    ∧ (request.evaluations = [] → executeEvaluationRequest env request = [])
    ∧ (∀ N M K : Nat, request.evaluations.length = N →
        (∀ e ∈ request.evaluations, e.backends.length = M ∧
          ∀ b ∈ e.backends, b.type ≠ BackendType.lmeval ∧ b.benchmarks.length = K) →
        (executeEvaluationRequest env request).length = N * M * K) := by
  have hcount : (executeEvaluationRequest env request).length = expectedCount request := by
    rw [executeEvaluationRequest, expectedCount, List.length_flatten, List.map_map]
    congr 1
    exact List.map_congr_left (fun e _ => length_executeSingleEvaluation env e)
  refine ⟨hcount, ?_, ?_⟩
  · intro h
    rw [executeEvaluationRequest, h]
    rfl
  · intro N M K hN huni
    rw [hcount, expectedCount]
    have heach : ∀ e ∈ request.evaluations,
        (e.backends.map (fun b =>
          if b.type = BackendType.lmeval then 1 else b.benchmarks.length)).sum = M * K := by
      intro e he
      obtain ⟨hM, hb⟩ := huni e he
      have : e.backends.map (fun b =>
          if b.type = BackendType.lmeval then 1 else b.benchmarks.length)
          = e.backends.map (fun _ => K) := by
        refine List.map_congr_left (fun b hbb => ?_)
        obtain ⟨ht, hK⟩ := hb b hbb
        rw [if_neg ht, hK]
      rw [this]
      simp [List.map_const', List.sum_replicate, smul_eq_mul, hM]
    have : request.evaluations.map (fun e =>
        (e.backends.map (fun b =>
          if b.type = BackendType.lmeval then 1 else b.benchmarks.length)).sum)
        = request.evaluations.map (fun _ => M * K) :=
      List.map_congr_left heach
    rw [this]
    simp [List.map_const', List.sum_replicate, smul_eq_mul, hN, Nat.mul_assoc]

/-! ## Retry-loop lemmas (claims C3, C4, C10) -/

/-- Exponential-backoff sleep total of a run of failing attempts
starting at index `i` with `fuel` attempts left (budget `r`). -/
def sleepSum (r : Nat) : Nat → Nat → Nat
  | _, 0 => 0
  | i, fuel + 1 => (if i < r then 2 ^ i else 0) + sleepSum r (i + 1) fuel

/-- Event trace of a run of failing attempts: each attempt, followed by
its backoff sleep while attempts remain. -/
def failTrace (r : Nat) : Nat → Nat → List Event
  | _, 0 => []
  | i, fuel + 1 =>
    (if i < r then [Event.attempt i, Event.sleep (2 ^ i)] else [Event.attempt i])
      ++ failTrace r (i + 1) fuel

/-- The value `last_error` holds on exhaustion when every attempt from
index `i` on fails with `f`. -/
def lastErrFor (f : Nat → PyErr) : Nat → Nat → Option PyErr → Option PyErr
  | 0, _, lastErr => lastErr
  | fuel + 1, i, _ => some (f (i + fuel))

theorem retryFrom_attemptsMade_le (ctx : ExecutionContext)
    (att : Nat → Except PyErr EvaluationResult) (r : Nat) :
    ∀ fuel i lastErr, (retryFrom ctx att r i fuel lastErr).attemptsMade ≤ fuel := by
  intro fuel
  induction fuel with
  | zero =>
    intro i lastErr
    exact Nat.le_refl 0
  | succ k ih =>
    intro i lastErr
    rw [retryFrom]
    cases h : att i with
    | ok res => simp
    | error e =>
      simp only []
      exact Nat.succ_le_succ (ih (i + 1) (some e))

theorem retryFrom_all_fail (ctx : ExecutionContext)
    (att : Nat → Except PyErr EvaluationResult) (r : Nat) (f : Nat → PyErr) :
    ∀ fuel i lastErr, (∀ j, i ≤ j → j < i + fuel → att j = .error (f j)) →
    retryFrom ctx att r i fuel lastErr =
      { result := exhaustedResult ctx (lastErrFor f fuel i lastErr)
        attemptsMade := fuel
        totalSleep := sleepSum r i fuel
        trace := failTrace r i fuel } := by
  intro fuel
  induction fuel with
  | zero =>
    intro i lastErr h
    rfl
  | succ k ih =>
    intro i lastErr h
    rw [retryFrom, h i (Nat.le_refl i) (by omega)]
    simp only [ih (i + 1) (some (f i)) (fun j h1 h2 => h j (by omega) (by omega))]
    simp only [RetryOut.mk.injEq]
    cases k with
    | zero => simp [lastErrFor, sleepSum, failTrace]
    | succ m =>
      have harith : i + 1 + m = i + (m + 1) := by omega
      simp [lastErrFor, harith, sleepSum, failTrace]

theorem sleepSum_eq (r : Nat) :
    ∀ fuel i, i + fuel = r + 1 → sleepSum r i fuel = 2 ^ r - 2 ^ i := by
  intro fuel
  induction fuel with
  | zero =>
    intro i h
    have hi : i = r + 1 := by omega
    subst hi
    rw [sleepSum]
    have : 2 ^ r ≤ 2 ^ (r + 1) := Nat.pow_le_pow_right (by omega) (by omega)
    omega
  | succ k ih =>
    intro i h
    rw [sleepSum, ih (i + 1) (by omega)]
    have h1 : (2 : Nat) ^ (i + 1) = 2 ^ i * 2 := pow_succ 2 i
    have h2 : (2 : Nat) ^ (i + 1) ≤ 2 ^ r ∨ ¬ i < r := by
      by_cases hir : i < r
      · exact Or.inl (Nat.pow_le_pow_right (by omega) (by omega))
      · exact Or.inr hir
    by_cases hir : i < r
    · rw [if_pos hir]
      rcases h2 with h2 | h2
      · omega
      · exact absurd hir h2
    · rw [if_neg hir]
      have hi : i = r := by omega
      subst hi
      have : (2 : Nat) ^ (i + 1) = 2 ^ i * 2 := pow_succ 2 i
      omega

theorem retryFrom_trace_events (ctx : ExecutionContext)
    (att : Nat → Except PyErr EvaluationResult) (r : Nat) :
    ∀ fuel i lastErr, ∀ e ∈ (retryFrom ctx att r i fuel lastErr).trace,
      (∃ j, e = .attempt j) ∨ (∃ n, e = .sleep n) := by
  intro fuel
  induction fuel with
  | zero =>
    intro i lastErr e he
    simp [retryFrom] at he
  | succ k ih =>
    intro i lastErr e he
    rw [retryFrom] at he
    cases h : att i with
    | ok res =>
      rw [h] at he
      have he2 : e ∈ [Event.attempt i] := he
      exact Or.inl ⟨i, List.mem_singleton.mp he2⟩
    | error er =>
      rw [h] at he
      have he2 : e ∈ ((if i < r then [Event.attempt i, Event.sleep (2 ^ i)]
          else [Event.attempt i]) ++ (retryFrom ctx att r (i + 1) k (some er)).trace) := he
      rw [List.mem_append] at he2
      rcases he2 with he2 | he2
      · by_cases hir : i < r
        · rw [if_pos hir] at he2
          rcases List.mem_cons.mp he2 with rfl | he3
          · exact Or.inl ⟨i, rfl⟩
          · rcases List.mem_cons.mp he3 with rfl | he4
            · exact Or.inr ⟨2 ^ i, rfl⟩
            · exact absurd he4 (List.not_mem_nil e)
        · rw [if_neg hir] at he2
          rcases List.mem_cons.mp he2 with rfl | he3
          · exact Or.inl ⟨i, rfl⟩
          · exact absurd he3 (List.not_mem_nil e)
      · exact ih (i + 1) (some er) e he2

theorem executeBenchmark_of_url_ne (env : Env) (evaluation : EvaluationSpec)
    (backend : BackendSpec) (benchmark : BenchmarkSpec)
    (hurl : evaluation.model_url ≠ "") :
    executeBenchmark env evaluation backend benchmark =
      { outcome := .ok (retryFrom (mkContext evaluation backend benchmark)
          (env.attemptOutcome (mkContext evaluation backend benchmark))
          evaluation.retry_attempts 0 (evaluation.retry_attempts + 1) none).result
        attemptsMade := (retryFrom (mkContext evaluation backend benchmark)
          (env.attemptOutcome (mkContext evaluation backend benchmark))
          evaluation.retry_attempts 0 (evaluation.retry_attempts + 1) none).attemptsMade
        totalSleep := (retryFrom (mkContext evaluation backend benchmark)
          (env.attemptOutcome (mkContext evaluation backend benchmark))
          evaluation.retry_attempts 0 (evaluation.retry_attempts + 1) none).totalSleep
        trace := [Event.acquire, Event.urlCheck]
          ++ (retryFrom (mkContext evaluation backend benchmark)
            (env.attemptOutcome (mkContext evaluation backend benchmark))
            evaluation.retry_attempts 0 (evaluation.retry_attempts + 1) none).trace
          ++ [Event.release] } := by
  rw [executeBenchmark, if_neg hurl]
  rfl

theorem executeBenchmark_of_url_eq (env : Env) (evaluation : EvaluationSpec)
    (backend : BackendSpec) (benchmark : BenchmarkSpec)
    (hurl : evaluation.model_url = "") :
    executeBenchmark env evaluation backend benchmark =
      { outcome := .error (.backendError
          ("Model URL is required but not provided for evaluation " ++ evaluation.id))
        attemptsMade := 0
        totalSleep := 0
        trace := [.acquire, .urlCheck, .release] } := by
  rw [executeBenchmark, if_pos hurl]

/-- C3: with retry budget `r = retry_attempts`, the inner execution is
invoked at most `r+1` times; when every attempt fails it is invoked
exactly `r+1` times, each failing attempt `i < r` is followed by a
`2^i`-second backoff sleep (delays 1s, 2s, 4s, …, total `2^r - 1`
seconds), and the final result is the synthesized `failed` result whose
message names the attempt count `r+1` and the last underlying error. -/
theorem C3_retry_policy (env : Env) (evaluation : EvaluationSpec)
    (backend : BackendSpec) (benchmark : BenchmarkSpec)
    (hurl : evaluation.model_url ≠ "") :
    (executeBenchmark env evaluation backend benchmark).attemptsMade
        ≤ evaluation.retry_attempts + 1
    ∧ (∀ f : Nat → PyErr,
        (∀ j, j ≤ evaluation.retry_attempts →
          env.attemptOutcome (mkContext evaluation backend benchmark) j = .error (f j)) →
        (executeBenchmark env evaluation backend benchmark).attemptsMade
            = evaluation.retry_attempts + 1
        ∧ (executeBenchmark env evaluation backend benchmark).totalSleep
            = 2 ^ evaluation.retry_attempts - 1
        ∧ (executeBenchmark env evaluation backend benchmark).trace
            = [Event.acquire, Event.urlCheck]
              ++ failTrace evaluation.retry_attempts 0 (evaluation.retry_attempts + 1)
              ++ [Event.release]
        ∧ (executeBenchmark env evaluation backend benchmark).outcome
            = .ok (exhaustedResult (mkContext evaluation backend benchmark)
                (some (f evaluation.retry_attempts)))
        ∧ (exhaustedResult (mkContext evaluation backend benchmark)
              (some (f evaluation.retry_attempts))).error_message
            = some ("Failed after " ++ toString (evaluation.retry_attempts + 1)
                ++ " attempts: " ++ (f evaluation.retry_attempts).message)) := by
  rw [executeBenchmark_of_url_ne env evaluation backend benchmark hurl]
  refine ⟨retryFrom_attemptsMade_le _ _ _ _ _ _, ?_⟩
  intro f hf
  rw [retryFrom_all_fail (mkContext evaluation backend benchmark)
    (env.attemptOutcome (mkContext evaluation backend benchmark))
    evaluation.retry_attempts f (evaluation.retry_attempts + 1) 0 none
    (fun j h1 h2 => hf j (by omega))]
  refine ⟨rfl, ?_, rfl, ?_, rfl⟩
  · show sleepSum evaluation.retry_attempts 0 (evaluation.retry_attempts + 1)
      = 2 ^ evaluation.retry_attempts - 1
    rw [sleepSum_eq _ _ 0 (by omega), pow_zero]
  · show Except.ok (exhaustedResult _
      (lastErrFor f (evaluation.retry_attempts + 1) 0 none)) = _
    rw [lastErrFor, Nat.zero_add]

theorem urlMsg_eq : "Model URL is required but not provided for evaluation "
    = "Model URL is required" ++ " but not provided for evaluation " := rfl

/-- C6: an empty model URL makes `_execute_benchmark` raise a
`BackendError` immediately — zero attempts made, so no retries — and
every result `_execute_backend` hands to the consumer for that backend
is a `failed` result whose error message starts with
"Model URL is required". -/
theorem C6_missing_model_url (env : Env) (evaluation : EvaluationSpec)
    (backend : BackendSpec) (benchmark : BenchmarkSpec)
    (hurl : evaluation.model_url = "") :
    (executeBenchmark env evaluation backend benchmark).outcome
        = .error (.backendError ("Model URL is required"
            ++ " but not provided for evaluation " ++ evaluation.id))
    ∧ (executeBenchmark env evaluation backend benchmark).attemptsMade = 0
    ∧ ∀ res ∈ executeBackend env evaluation backend, res.status = .failed ∧
        res.error_message = some ("Model URL is required"
          ++ " but not provided for evaluation " ++ evaluation.id) := by
  refine ⟨?_, ?_, ?_⟩
  · rw [executeBenchmark_of_url_eq env evaluation backend benchmark hurl, urlMsg_eq]
  · rw [executeBenchmark_of_url_eq env evaluation backend benchmark hurl]
  · intro res hres
    rw [executeBackend] at hres
    by_cases ht : backend.type = BackendType.lmeval
    · rw [if_pos ht,
        executeBenchmark_of_url_eq env evaluation backend (combinedBenchmark backend) hurl]
        at hres
      have hres2 : res ∈ [benchmarkErrorResult evaluation backend.name
          ("collection-" ++ String.intercalate "-" (backend.benchmarks.map (fun b => b.name)))
          (.backendError ("Model URL is required but not provided for evaluation "
            ++ evaluation.id))] := hres
      rw [List.mem_singleton] at hres2
      rw [hres2]
      refine ⟨rfl, ?_⟩
      show some ("Model URL is required but not provided for evaluation "
        ++ evaluation.id) = some ("Model URL is required"
          ++ " but not provided for evaluation " ++ evaluation.id)
      rw [urlMsg_eq]
    · rw [if_neg ht] at hres
      obtain ⟨b, hb, rfl⟩ := List.mem_map.mp hres
      rw [executeBenchmark_of_url_eq env evaluation backend b hurl]
      refine ⟨rfl, ?_⟩
      show some ("Model URL is required but not provided for evaluation "
        ++ evaluation.id) = some ("Model URL is required"
          ++ " but not provided for evaluation " ++ evaluation.id)
      rw [urlMsg_eq]

/-- C10: the semaphore slot is acquired once, first — before the
model-URL check and every attempt — and released once, last, on both
the normal and the exception exit path; everything in between is the
URL check followed only by attempt and backoff-sleep events, so the
slot stays held across the whole retry sequence including the sleeps. -/
theorem C10_semaphore_scope (env : Env) (evaluation : EvaluationSpec)
    (backend : BackendSpec) (benchmark : BenchmarkSpec) :
    ∃ mid, (executeBenchmark env evaluation backend benchmark).trace
        = Event.acquire :: (mid ++ [Event.release])
      ∧ mid.head? = some Event.urlCheck
      ∧ Event.acquire ∉ mid
      ∧ Event.release ∉ mid
      ∧ (∀ e ∈ mid, e = Event.urlCheck ∨ (∃ j, e = Event.attempt j)
          ∨ (∃ n, e = Event.sleep n)) := by
  by_cases hurl : evaluation.model_url = ""
  · refine ⟨[Event.urlCheck], ?_, rfl, by simp, by simp, ?_⟩
    · rw [executeBenchmark_of_url_eq env evaluation backend benchmark hurl]
      rfl
    · intro e he
      rw [List.mem_singleton] at he
      exact Or.inl he
  · refine ⟨Event.urlCheck :: (retryFrom (mkContext evaluation backend benchmark)
      (env.attemptOutcome (mkContext evaluation backend benchmark))
      evaluation.retry_attempts 0 (evaluation.retry_attempts + 1) none).trace,
      ?_, rfl, ?_, ?_, ?_⟩
    · rw [executeBenchmark_of_url_ne env evaluation backend benchmark hurl]
      simp
    · intro hmem
      rcases List.mem_cons.mp hmem with h | h
      · cases h
      · rcases retryFrom_trace_events _ _ _ _ _ _ _ h with ⟨j, hj⟩ | ⟨n, hn⟩
        · cases hj
        · cases hn
    · intro hmem
      rcases List.mem_cons.mp hmem with h | h
      · cases h
      · rcases retryFrom_trace_events _ _ _ _ _ _ _ h with ⟨j, hj⟩ | ⟨n, hn⟩
        · cases hj
        · cases hn
    · intro e he
      rcases List.mem_cons.mp he with rfl | h
      · exact Or.inl rfl
      · exact Or.inr (retryFrom_trace_events _ _ _ _ _ _ _ h)

/-- C5 (recording the code's actual behavior, contradicting the claim):
no statement in the execution path of `executor.py` writes
`self.active_tasks`, so after executing any batch from a fresh service
the active-tasks map is still empty: `get_active_evaluations` returns
the empty list, `get_evaluation_status` returns none and
`cancel_evaluation` returns false for every id, including the ids of
the evaluations just executed. -/
theorem C5_active_tasks_never_populated (env : Env) (request : EvaluationRequest)
    (evaluationId : String) :
    (executeEvaluationRequestS initialExecutorState env request).1.active_tasks = []
    ∧ getActiveEvaluations (executeEvaluationRequestS initialExecutorState env request).1 = []
    ∧ cancelEvaluation (executeEvaluationRequestS initialExecutorState env request).1
        evaluationId
        = ((executeEvaluationRequestS initialExecutorState env request).1, false)
    ∧ getEvaluationStatus (executeEvaluationRequestS initialExecutorState env request).1
        evaluationId = none :=
  ⟨rfl, rfl, rfl, rfl⟩

/-! ## Merge-direction lemmas (claims C7, C9) -/

theorem buildModelArgs_first_wins (cfg : LMEvalConfig) (u m k v : String)
    (h : dictGet? cfg.model_args k = some v) :
    dictGet? (buildModelArgs cfg u m) k = some v := by
  simp only [buildModelArgs]
  exact dictGet?_addIfAbsent_of_present _ (dictGet?_addIfAbsent_of_present _
    (dictGet?_addIfAbsent_of_present _ (dictGet?_addIfAbsent_of_present _
      (dictGet?_addIfAbsent_of_present _ (dictGet?_addIfAbsent_of_present _ h)))))

theorem buildModelArgs_model_absent (cfg : LMEvalConfig) (u m : String)
    (h : dictGet? cfg.model_args "model" = none) :
    dictGet? (buildModelArgs cfg u m) "model" = some m := by
  simp only [buildModelArgs]
  rw [dictGet?_addIfAbsent_of_ne ("tokenizer", cfg.tokenizer.getD "google/flan-t5-base")
      (by simp),
    dictGet?_addIfAbsent_of_ne ("tokenized_requests", cfg.tokenized_requests.getD "False")
      (by simp),
    dictGet?_addIfAbsent_of_ne ("max_retries", cfg.max_retries.getD "3") (by simp),
    dictGet?_addIfAbsent_of_ne ("num_concurrent", cfg.num_concurrent.getD "1") (by simp),
    dictGet?_addIfAbsent_of_ne ("base_url", resolveBaseUrl u (cfg.base_url.getD ""))
      (by simp)]
  exact dictGet?_addIfAbsent_of_absent h

theorem buildModelArgs_base_url_absent (cfg : LMEvalConfig) (u m : String)
    (h : dictGet? cfg.model_args "base_url" = none) :
    dictGet? (buildModelArgs cfg u m) "base_url"
      = some (resolveBaseUrl u (cfg.base_url.getD "")) := by
  simp only [buildModelArgs]
  rw [dictGet?_addIfAbsent_of_ne ("tokenizer", cfg.tokenizer.getD "google/flan-t5-base")
      (by simp),
    dictGet?_addIfAbsent_of_ne ("tokenized_requests", cfg.tokenized_requests.getD "False")
      (by simp),
    dictGet?_addIfAbsent_of_ne ("max_retries", cfg.max_retries.getD "3") (by simp),
    dictGet?_addIfAbsent_of_ne ("num_concurrent", cfg.num_concurrent.getD "1") (by simp)]
  refine dictGet?_addIfAbsent_of_absent ?_
  rw [dictGet?_addIfAbsent_of_ne ("model", m) (by simp)]
  exact h

theorem buildModelArgs_num_concurrent_absent (cfg : LMEvalConfig) (u m : String)
    (h : dictGet? cfg.model_args "num_concurrent" = none) :
    dictGet? (buildModelArgs cfg u m) "num_concurrent"
      = some (cfg.num_concurrent.getD "1") := by
  simp only [buildModelArgs]
  rw [dictGet?_addIfAbsent_of_ne ("tokenizer", cfg.tokenizer.getD "google/flan-t5-base")
      (by simp),
    dictGet?_addIfAbsent_of_ne ("tokenized_requests", cfg.tokenized_requests.getD "False")
      (by simp),
    dictGet?_addIfAbsent_of_ne ("max_retries", cfg.max_retries.getD "3") (by simp)]
  refine dictGet?_addIfAbsent_of_absent ?_
  rw [dictGet?_addIfAbsent_of_ne ("base_url", resolveBaseUrl u (cfg.base_url.getD ""))
      (by simp),
    dictGet?_addIfAbsent_of_ne ("model", m) (by simp)]
  exact h

theorem buildModelArgs_max_retries_absent (cfg : LMEvalConfig) (u m : String)
    (h : dictGet? cfg.model_args "max_retries" = none) :
    dictGet? (buildModelArgs cfg u m) "max_retries"
      = some (cfg.max_retries.getD "3") := by
  simp only [buildModelArgs]
  rw [dictGet?_addIfAbsent_of_ne ("tokenizer", cfg.tokenizer.getD "google/flan-t5-base")
      (by simp),
    dictGet?_addIfAbsent_of_ne ("tokenized_requests", cfg.tokenized_requests.getD "False")
      (by simp)]
  refine dictGet?_addIfAbsent_of_absent ?_
  rw [dictGet?_addIfAbsent_of_ne ("num_concurrent", cfg.num_concurrent.getD "1") (by simp),
    dictGet?_addIfAbsent_of_ne ("base_url", resolveBaseUrl u (cfg.base_url.getD ""))
      (by simp),
    dictGet?_addIfAbsent_of_ne ("model", m) (by simp)]
  exact h

theorem buildModelArgs_tokenized_requests_absent (cfg : LMEvalConfig) (u m : String)
    (h : dictGet? cfg.model_args "tokenized_requests" = none) :
    dictGet? (buildModelArgs cfg u m) "tokenized_requests"
      = some (cfg.tokenized_requests.getD "False") := by
  simp only [buildModelArgs]
  rw [dictGet?_addIfAbsent_of_ne ("tokenizer", cfg.tokenizer.getD "google/flan-t5-base")
      (by simp)]
  refine dictGet?_addIfAbsent_of_absent ?_
  rw [dictGet?_addIfAbsent_of_ne ("max_retries", cfg.max_retries.getD "3") (by simp),
    dictGet?_addIfAbsent_of_ne ("num_concurrent", cfg.num_concurrent.getD "1") (by simp),
    dictGet?_addIfAbsent_of_ne ("base_url", resolveBaseUrl u (cfg.base_url.getD ""))
      (by simp),
    dictGet?_addIfAbsent_of_ne ("model", m) (by simp)]
  exact h

theorem buildModelArgs_tokenizer_absent (cfg : LMEvalConfig) (u m : String)
    (h : dictGet? cfg.model_args "tokenizer" = none) :
    dictGet? (buildModelArgs cfg u m) "tokenizer"
      = some (cfg.tokenizer.getD "google/flan-t5-base") := by
  simp only [buildModelArgs]
  refine dictGet?_addIfAbsent_of_absent ?_
  rw [dictGet?_addIfAbsent_of_ne ("tokenized_requests", cfg.tokenized_requests.getD "False")
      (by simp),
    dictGet?_addIfAbsent_of_ne ("max_retries", cfg.max_retries.getD "3") (by simp),
    dictGet?_addIfAbsent_of_ne ("num_concurrent", cfg.num_concurrent.getD "1") (by simp),
    dictGet?_addIfAbsent_of_ne ("base_url", resolveBaseUrl u (cfg.base_url.getD ""))
      (by simp),
    dictGet?_addIfAbsent_of_ne ("model", m) (by simp)]
  exact h

theorem dictGet?_foldl_none (k : String) :
    ∀ (post : List BenchmarkSpec) (d : Dict),
      (∀ x ∈ post, ((x.config).map Prod.fst).Nodup) →
      (∀ x ∈ post, dictGet? x.config k = none) →
      dictGet? (post.foldl (fun acc b => dictUpdate acc b.config) d) k
        = dictGet? d k := by
  intro post
  induction post with
  | nil =>
    intro d _ _
    rfl
  | cons b post ih =>
    intro d hn h0
    rw [List.foldl_cons,
      ih _ (fun x hx => hn x (List.mem_cons_of_mem _ hx))
        (fun x hx => h0 x (List.mem_cons_of_mem _ hx)),
      dictGet?_dictUpdate _ _ _ (hn b (List.mem_cons_self _ _)),
      h0 b (List.mem_cons_self _ _)]
    rfl

theorem combinedBenchmark_config_later_wins (backend : BackendSpec)
    (pre post : List BenchmarkSpec) (b : BenchmarkSpec) (k v : String)
    (hsplit : backend.benchmarks = pre ++ b :: post)
    (hnod : ∀ x ∈ backend.benchmarks, ((x.config).map Prod.fst).Nodup)
    (hv : dictGet? b.config k = some v)
    (hpost : ∀ x ∈ post, dictGet? x.config k = none) :
    dictGet? (combinedBenchmark backend).config k = some v := by
  show dictGet? (backend.benchmarks.foldl (fun acc x => dictUpdate acc x.config) []) k
    = some v
  rw [hsplit, List.foldl_append, List.foldl_cons,
    dictGet?_foldl_none k post _
      (fun x hx => hnod x (by
        rw [hsplit]
        exact List.mem_append_right _ (List.mem_cons_of_mem _ hx)))
      hpost,
    dictGet?_dictUpdate _ _ _ (hnod b (by
      rw [hsplit]
      exact List.mem_append_right _ (List.mem_cons_self _ _))),
    hv]
  rfl

/-! ## URL normalization lemmas (claim C9) -/

theorem pyEndsWith_append (a t : String) : pyEndsWith (a ++ t) t = true := by
  rw [pyEndsWith, List.isSuffixOf_iff_suffix, String.data_append]
  exact ⟨a.data, rfl⟩

theorem normalizeUrl_ends (u : String) :
    pyEndsWith (normalizeUrl u) "/v1/completions" = true := by
  rw [normalizeUrl]
  by_cases h : pyEndsWith (pyRstripSlash u) "/v1/completions" = true
  · rw [if_pos h]
    exact h
  · rw [if_neg h]
    exact pyEndsWith_append _ _

/-- C7: the two merge operations have opposite directions. In the CR
modelArgs list, a default entry (`model`, `base_url`, `num_concurrent`,
`max_retries`, `tokenized_requests`, `tokenizer`) is appended only when
no entry with that name already exists, so for any duplicate key the
configured (first) occurrence wins; when combining a grouped backend's
benchmarks, the configs are merged so that for any duplicate key the
later benchmark's value wins. -/
theorem C7_merge_directions :
    (∀ (cfg : LMEvalConfig) (u m k v : String),
      dictGet? cfg.model_args k = some v →
      dictGet? (buildModelArgs cfg u m) k = some v)
    ∧ (∀ (cfg : LMEvalConfig) (u m : String),
      (dictGet? cfg.model_args "model" = none →
        dictGet? (buildModelArgs cfg u m) "model" = some m)
      ∧ (dictGet? cfg.model_args "base_url" = none →
        dictGet? (buildModelArgs cfg u m) "base_url"
          = some (resolveBaseUrl u (cfg.base_url.getD "")))
      ∧ (dictGet? cfg.model_args "num_concurrent" = none →
        dictGet? (buildModelArgs cfg u m) "num_concurrent"
          = some (cfg.num_concurrent.getD "1"))
      ∧ (dictGet? cfg.model_args "max_retries" = none →
        dictGet? (buildModelArgs cfg u m) "max_retries"
          = some (cfg.max_retries.getD "3"))
      ∧ (dictGet? cfg.model_args "tokenized_requests" = none →
        dictGet? (buildModelArgs cfg u m) "tokenized_requests"
          = some (cfg.tokenized_requests.getD "False"))
      ∧ (dictGet? cfg.model_args "tokenizer" = none →
        dictGet? (buildModelArgs cfg u m) "tokenizer"
          = some (cfg.tokenizer.getD "google/flan-t5-base")))
    ∧ (∀ (backend : BackendSpec) (pre post : List BenchmarkSpec)
        (b : BenchmarkSpec) (k v : String),
      backend.benchmarks = pre ++ b :: post →
      (∀ x ∈ backend.benchmarks, ((x.config).map Prod.fst).Nodup) →
      dictGet? b.config k = some v →
      (∀ x ∈ post, dictGet? x.config k = none) →
      dictGet? (combinedBenchmark backend).config k = some v) := by
  refine ⟨buildModelArgs_first_wins, ?_, combinedBenchmark_config_later_wins⟩
  intro cfg u m
  exact ⟨buildModelArgs_model_absent cfg u m, buildModelArgs_base_url_absent cfg u m,
    buildModelArgs_num_concurrent_absent cfg u m, buildModelArgs_max_retries_absent cfg u m,
    buildModelArgs_tokenized_requests_absent cfg u m, buildModelArgs_tokenizer_absent cfg u m⟩

/-- C9: when the configured model args carry no `base_url`, the CR's
`base_url` entry is the resolved base endpoint with precedence context
model URL, then backend-config `base_url`, then empty string; a
non-empty resolution is normalized by stripping trailing slashes and
appending "/v1/completions" exactly when the stripped URL does not
already end with it — so every non-empty resolution ends with the
suffix — and an empty resolution yields an empty-string entry. -/
theorem C9_base_url_entry :
    (∀ (cfg : LMEvalConfig) (u m : String),
      dictGet? cfg.model_args "base_url" = none →
      dictGet? (buildModelArgs cfg u m) "base_url"
        = some (resolveBaseUrl u (cfg.base_url.getD "")))
    ∧ (∀ u c, u ≠ "" → resolveBaseUrl u c = normalizeUrl u)
    ∧ (∀ c, c ≠ "" → resolveBaseUrl "" c = normalizeUrl c)
    ∧ resolveBaseUrl "" "" = ""
    ∧ (∀ u, pyEndsWith (pyRstripSlash u) "/v1/completions" = true →
        normalizeUrl u = pyRstripSlash u)
    ∧ (∀ u, pyEndsWith (pyRstripSlash u) "/v1/completions" = false →
        normalizeUrl u = pyRstripSlash u ++ "/v1/completions")
    ∧ (∀ u c, resolveBaseUrl u c ≠ "" →
        pyEndsWith (resolveBaseUrl u c) "/v1/completions" = true) := by
  refine ⟨buildModelArgs_base_url_absent, ?_, ?_, rfl, ?_, ?_, ?_⟩
  · intro u c hu
    rw [resolveBaseUrl]
    simp only [if_neg hu]
  · intro c hc
    show (if (if ("" : String) = "" then c else "") = "" then ""
      else normalizeUrl (if ("" : String) = "" then c else "")) = normalizeUrl c
    rw [if_pos rfl, if_neg hc]
  · intro u h
    show (if pyEndsWith (pyRstripSlash u) "/v1/completions" = true then pyRstripSlash u
      else pyRstripSlash u ++ "/v1/completions") = pyRstripSlash u
    rw [if_pos h]
  · intro u h
    show (if pyEndsWith (pyRstripSlash u) "/v1/completions" = true then pyRstripSlash u
      else pyRstripSlash u ++ "/v1/completions") = pyRstripSlash u ++ "/v1/completions"
    rw [if_neg (by rw [h]; exact Bool.false_ne_true)]
  · intro u c hne
    rw [resolveBaseUrl] at hne ⊢
    by_cases hu : u = ""
    · simp only [if_pos hu] at hne ⊢
      by_cases hc : c = ""
      · rw [if_pos hc] at hne
        exact absurd rfl hne
      · rw [if_neg hc]
        exact normalizeUrl_ends c
    · simp only [if_neg hu] at hne ⊢
      exact normalizeUrl_ends u

/-! ## LMEval executor failure-conversion lemmas (claims C2, C4) -/

/-- C2 (amended, recording the code's actual boundary): once the
initial model-name resolution succeeds, `execute_benchmark` never
raises — every terminating run returns a result — and any exception
raised inside the `try` body is converted into a `failed` result whose
`error_message` is the exception's message. (When neither backend
config nor context supplies a model name, the check before the `try`
block raises `BackendError` past the boundary.) -/
theorem C2_exec_benchmark_boundary (cfg : LMEvalConfig) (env : LMEvalEnv)
    (ctx : ExecutionContext) (hmodel : resolvedModel cfg ctx ≠ "") :
    (∀ x, lmevalExecuteBenchmark cfg env ctx = some x → ∃ res, x = .ok res)
    ∧ (∀ e, lmevalTryBody cfg env ctx = some (.error e) →
        lmevalExecuteBenchmark cfg env ctx
          = some (.ok (lmevalFailedResult ctx e.message))
        ∧ (lmevalFailedResult ctx e.message).status = .failed
        ∧ (lmevalFailedResult ctx e.message).error_message = some e.message) := by
  constructor
  · intro x hx
    rw [lmevalExecuteBenchmark, if_neg hmodel] at hx
    cases hbody : lmevalTryBody cfg env ctx with
    | none =>
      rw [hbody] at hx
      cases hx
    | some y =>
      rw [hbody] at hx
      cases y with
      | ok res =>
        rw [Option.some.injEq] at hx
        exact ⟨res, hx.symm⟩
      | error e =>
        rw [Option.some.injEq] at hx
        exact ⟨lmevalFailedResult ctx e.message, hx.symm⟩
  · intro e he
    rw [lmevalExecuteBenchmark, if_neg hmodel, he]
    exact ⟨rfl, rfl, rfl⟩

/-- Whether an attempt outcome is a success. -/
def isOkB : Except PyErr EvaluationResult → Bool
  | .ok _ => true
  | .error _ => false

theorem retryFrom_counts_error_agnostic (ctx : ExecutionContext) (r : Nat)
    (att1 att2 : Nat → Except PyErr EvaluationResult)
    (h : ∀ j, isOkB (att1 j) = isOkB (att2 j)) :
    ∀ fuel i le1 le2,
      (retryFrom ctx att1 r i fuel le1).attemptsMade
        = (retryFrom ctx att2 r i fuel le2).attemptsMade
      ∧ (retryFrom ctx att1 r i fuel le1).totalSleep
        = (retryFrom ctx att2 r i fuel le2).totalSleep := by
  intro fuel
  induction fuel with
  | zero =>
    intro i le1 le2
    exact ⟨rfl, rfl⟩
  | succ k ih =>
    intro i le1 le2
    rw [retryFrom, retryFrom]
    cases h1 : att1 i with
    | ok res =>
      cases h2 : att2 i with
      | ok res2 => exact ⟨rfl, rfl⟩
      | error e2 =>
        have hok := h i
        rw [h1, h2] at hok
        simp [isOkB] at hok
    | error e =>
      cases h2 : att2 i with
      | ok res2 =>
        have hok := h i
        rw [h1, h2] at hok
        simp [isOkB] at hok
      | error e2 =>
        constructor
        · show (retryFrom ctx att1 r (i + 1) k (some e)).attemptsMade + 1
            = (retryFrom ctx att2 r (i + 1) k (some e2)).attemptsMade + 1
          rw [(ih (i + 1) (some e) (some e2)).1]
        · show (if i < r then 2 ^ i else 0)
              + (retryFrom ctx att1 r (i + 1) k (some e)).totalSleep
            = (if i < r then 2 ^ i else 0)
              + (retryFrom ctx att2 r (i + 1) k (some e2)).totalSleep
          rw [(ih (i + 1) (some e) (some e2)).2]

/-- C4 (amended): the per-attempt execution timeout of
`timeout_minutes * 60` seconds raises the distinguishable eval-hub
`TimeoutError`; the CR-poll wall-clock timeout, re-checked on each poll
iteration, raises a `BackendError` — not a `TimeoutError`; and the
retry layer treats a timeout exactly like any other backend failure for
retry counting and backoff. -/
theorem C4_timeout_layers :
    (∀ implSeconds timeoutMinutes inner, timeoutMinutes * 60 < implSeconds →
      executeBenchmarkWithTimeout implSeconds timeoutMinutes inner
        = .error (.timeoutError ("Benchmark execution timed out after "
            ++ toString timeoutMinutes ++ " minutes"))
      ∧ (PyErr.timeoutError ("Benchmark execution timed out after "
          ++ toString timeoutMinutes ++ " minutes")).isTimeout = true)
    ∧ (∀ crName maxWait (ctx : ExecutionContext)
        (parse : CRStatus → Except PyErr EvaluationResult) elapsed fetch rest,
      maxWait < elapsed →
      pollLoop crName maxWait ctx parse ((elapsed, fetch) :: rest)
        = some (.error (.backendError ("LMEvalJob CR " ++ crName
            ++ " did not complete within " ++ toString maxWait ++ " seconds")))
      ∧ (PyErr.backendError ("LMEvalJob CR " ++ crName
          ++ " did not complete within " ++ toString maxWait ++ " seconds")).isTimeout
          = false)
    ∧ (∀ (ctx : ExecutionContext) r att1 att2,
      (∀ j, isOkB (att1 j) = isOkB (att2 j)) →
      ∀ fuel i le1 le2,
        (retryFrom ctx att1 r i fuel le1).attemptsMade
          = (retryFrom ctx att2 r i fuel le2).attemptsMade
        ∧ (retryFrom ctx att1 r i fuel le1).totalSleep
          = (retryFrom ctx att2 r i fuel le2).totalSleep) := by
  refine ⟨?_, ?_, retryFrom_counts_error_agnostic⟩
  · intro implSeconds timeoutMinutes inner h
    rw [executeBenchmarkWithTimeout]
    exact ⟨if_pos h, rfl⟩
  · intro crName maxWait ctx parse elapsed fetch rest h
    simp only [pollLoop]
    exact ⟨if_pos h, rfl⟩

/-! ## Concrete instances for the closed witness and counterexample
statements -/

def benchA : BenchmarkSpec := { name := "arc_easy", tasks := ["arc_easy"] }

def benchB : BenchmarkSpec := { name := "hellaswag", tasks := ["hellaswag"] }

def backendCustom : BackendSpec :=
  { name := "custom-backend", type := .custom, benchmarks := [benchA, benchB] }

def backendCustom2 : BackendSpec :=
  { name := "custom-backend-2", type := .custom, benchmarks := [benchA, benchB] }

def evalOne : EvaluationSpec :=
  { id := "eval-1", model_url := "http://model:8080", model_name := "m1",
    backends := [backendCustom, backendCustom2] }

def requestOne : EvaluationRequest :=
  { request_id := "req-1", evaluations := [evalOne] }

def okResult : EvaluationResult :=
  { evaluation_id := "eval-1", backend_name := "custom-backend",
    benchmark_name := "arc_easy", status := .completed }

def okEnv : Env := { attemptOutcome := fun _ _ => .ok okResult }

def failEnv : Env :=
  { attemptOutcome := fun _ _ => .error (.backendError "connection refused") }

/-- Witness for C1 at a concrete batch: one evaluation with two
non-grouped backends of two benchmarks each gives 1×2×2 results. -/
theorem C1_result_count_witness :
    (executeEvaluationRequest okEnv requestOne).length = expectedCount requestOne
    ∧ (executeEvaluationRequest okEnv requestOne).length = 1 * 2 * 2 := by
  have h := C1_result_count okEnv requestOne
  exact ⟨h.1, h.2.2 1 2 2 rfl (by decide)⟩

/-- Witness for C3: a retry budget of 2 with an always-failing executor
makes three attempts, sleeps 3 seconds of backoff in total, and ends in
the synthesized message naming 3 attempts and the last error. -/
theorem C3_retry_policy_witness :
    (executeBenchmark failEnv evalOne backendCustom benchA).attemptsMade = 3
    ∧ (executeBenchmark failEnv evalOne backendCustom benchA).totalSleep = 3
    ∧ (exhaustedResult (mkContext evalOne backendCustom benchA)
        (some (.backendError "connection refused"))).error_message
      = some "Failed after 3 attempts: connection refused" := by
  have h := (C3_retry_policy failEnv evalOne backendCustom benchA (by decide)).2
    (fun _ => .backendError "connection refused") (fun j hj => rfl)
  refine ⟨?_, ?_, ?_⟩
  · rw [h.1]
    rfl
  · rw [h.2.1]
    rfl
  · rw [h.2.2.2.2]
    rfl

def evalNoUrl : EvaluationSpec :=
  { id := "eval-2", model_url := "", model_name := "m1",
    backends := [backendCustom] }

/-- Witness for C6 at a concrete evaluation with an empty model URL. -/
theorem C6_missing_model_url_witness :
    (executeBenchmark okEnv evalNoUrl backendCustom benchA).attemptsMade = 0
    ∧ ∀ res ∈ executeBackend okEnv evalNoUrl backendCustom, res.status = .failed ∧
        res.error_message = some ("Model URL is required"
          ++ " but not provided for evaluation " ++ "eval-2") := by
  have h := C6_missing_model_url okEnv evalNoUrl backendCustom benchA rfl
  exact ⟨h.2.1, h.2.2⟩

def cfgConflict : LMEvalConfig :=
  { model_args := [("model", "configured-model"), ("extra", "x1")] }

def benchCfg1 : BenchmarkSpec :=
  { name := "c1", tasks := ["t1"], config := [("shared", "first"), ("only1", "a")] }

def benchCfg2 : BenchmarkSpec :=
  { name := "c2", tasks := ["t2"], config := [("shared", "second")] }

def backendGrouped : BackendSpec :=
  { name := "lmeval-backend", type := .lmeval, benchmarks := [benchCfg1, benchCfg2] }

/-- Witness for C7 with one conflicting key in each direction: the
configured `model` entry beats the default, and the `shared` config key
takes the later benchmark's value. -/
theorem C7_merge_directions_witness :
    dictGet? (buildModelArgs cfgConflict "http://u" "default-model") "model"
      = some "configured-model"
    ∧ dictGet? (combinedBenchmark backendGrouped).config "shared" = some "second" := by
  refine ⟨C7_merge_directions.1 cfgConflict "http://u" "default-model" "model"
    "configured-model" rfl, ?_⟩
  exact C7_merge_directions.2.2 backendGrouped [benchCfg1] [] benchCfg2 "shared" "second"
    rfl (by decide) rfl (fun x hx => absurd hx (List.not_mem_nil x))

def cfgNoBase : LMEvalConfig :=
  { model_args := [("model", "mm")], base_url := some "http://cfg" }

/-- Witness for C9: with no configured `base_url` model arg, the
context URL wins, loses its trailing slash and gains the completions
suffix. -/
theorem C9_base_url_entry_witness :
    dictGet? (buildModelArgs cfgNoBase "http://ctx:8080/" "mm") "base_url"
      = some "http://ctx:8080/v1/completions"
    ∧ resolveBaseUrl "http://ctx:8080/" "http://cfg" = normalizeUrl "http://ctx:8080/" := by
  have h1 := C9_base_url_entry.1 cfgNoBase "http://ctx:8080/" "mm" rfl
  have h2 := C9_base_url_entry.2.1 "http://ctx:8080/" "http://cfg" (by decide)
  exact ⟨by rw [h1]; rfl, h2⟩

def ctxNoModel : ExecutionContext :=
  { evaluation_id := "eval-3", model_url := "http://m", model_name := "",
    backend_spec := backendCustom, benchmark_spec := benchA,
    timeout_minutes := 30, retry_attempts := 2 }

def lmenvDeployFail : LMEvalEnv :=
  { jobName := "lmeval-job-1", deployOutcome := .error (.backendError "deploy boom"),
    pollTrace := [], parseResults := fun _ => .error (.other "unused"),
    localOutcome := .ok okResult }

/-- Counterexample to C2 as stated: with no model name in the backend
config and an empty context model name, `execute_benchmark` raises
`BackendError` past its boundary instead of returning a failed
result. -/
theorem C2_counterexample :
    lmevalExecuteBenchmark {} lmenvDeployFail ctxNoModel
      = some (.error (.backendError
          "Model name is required (either in backend config or context)")) := rfl

def ctxWithModel : ExecutionContext :=
  { evaluation_id := "eval-3", model_url := "http://m", model_name := "m1",
    backend_spec := backendCustom, benchmark_spec := benchA,
    timeout_minutes := 30, retry_attempts := 2 }

/-- Witness for the amended C2: with a resolvable model name, a failing
CR deployment is converted into a `failed` result and nothing is
raised. -/
theorem C2_exec_benchmark_boundary_witness :
    lmevalExecuteBenchmark {} lmenvDeployFail ctxWithModel
      = some (.ok (lmevalFailedResult ctxWithModel "deploy boom"))
    ∧ (lmevalFailedResult ctxWithModel "deploy boom").status = .failed
    ∧ (lmevalFailedResult ctxWithModel "deploy boom").error_message
      = some "deploy boom" := by
  exact (C2_exec_benchmark_boundary {} lmenvDeployFail ctxWithModel (by decide)).2
    (.backendError "deploy boom") rfl

/-- Counterexample to C4 as stated: at a poll iteration past the
wall-clock budget the poll layer raises a `BackendError`, not the
distinguishable `TimeoutError` the claim requires of both layers. -/
theorem C4_counterexample :
    pollLoop "lmeval-job-1" 10 ctxWithModel (fun _ => .error (.other "unused"))
        [(11, .fetched {})]
      = some (.error (.backendError
          "LMEvalJob CR lmeval-job-1 did not complete within 10 seconds"))
    ∧ (PyErr.backendError
        "LMEvalJob CR lmeval-job-1 did not complete within 10 seconds").isTimeout
      = false := ⟨rfl, rfl⟩

/-- Witness for the amended C4 at concrete values: a 2-minute budget
exceeded by a 150-second run raises `TimeoutError`; a poll at 11
seconds against a 10-second budget raises `BackendError`; and an
always-timeout executor and an always-backend-error executor make the
same number of attempts with the same total backoff. -/
theorem C4_timeout_layers_witness :
    executeBenchmarkWithTimeout 150 2 (.ok okResult)
      = .error (.timeoutError "Benchmark execution timed out after 2 minutes")
    ∧ (PyErr.timeoutError "Benchmark execution timed out after 2 minutes").isTimeout = true
    ∧ pollLoop "j" 10 ctxWithModel (fun _ => .error (.other "unused")) [(11, .fetched {})]
        = some (.error (.backendError "LMEvalJob CR j did not complete within 10 seconds"))
    ∧ (retryFrom ctxWithModel (fun _ => .error (.timeoutError "t")) 2 0 3 none).attemptsMade
      = (retryFrom ctxWithModel (fun _ => .error (.backendError "b")) 2 0 3 none).attemptsMade
    ∧ (retryFrom ctxWithModel (fun _ => .error (.timeoutError "t")) 2 0 3 none).totalSleep
      = (retryFrom ctxWithModel (fun _ => .error (.backendError "b")) 2 0 3 none).totalSleep := by
  have h1 := C4_timeout_layers.1 150 2 (.ok okResult) (by omega)
  have h2 := C4_timeout_layers.2.1 "j" 10 ctxWithModel (fun _ => .error (.other "unused"))
    11 (.fetched {}) [] (by omega)
  have h3 := C4_timeout_layers.2.2 ctxWithModel 2 (fun _ => .error (.timeoutError "t"))
    (fun _ => .error (.backendError "b")) (fun j => rfl) 3 0 none none
  refine ⟨?_, h1.2, ?_, h3.1, h3.2⟩
  · rw [h1.1]
    rfl
  · rw [h2.1]
    rfl

end EvalHub
